import Mathlib

/-!
Verification development для go-jira's `issue.go`: a shallow embedding of the
dynamic-field split/merge logic (`IssueFields.UnmarshalJSON` / `MarshalJSON`),
the metadata-driven issue builder (`InitIssueWithMetaAndFields`) and the
custom-field extraction (`GetCustomFields`), together with theorems about the
spec's testable properties.
-/

namespace GoJira

/-- JSON values as decoded by `encoding/json`; objects keep their member order
(the order of the raw document), numbers are modelled as integers (no claim
involves fractional numbers). -/
inductive Json where
  | null : Json
  | jbool (b : Bool) : Json
  | num (n : Int) : Json
  | str (s : String) : Json
  | arr (elems : List Json) : Json
  | obj (members : List (String × Json)) : Json
deriving Repr

/-- Lookup of the first binding of a key in an association list, modelling a Go
map read (the lists built by `mput` below never carry duplicate keys). -/
def mlookup (k : String) : List (String × α) → Option α
  | [] => none
  | (k', v) :: rest => if k' = k then some v else mlookup k rest

/-- Go map assignment `m[k] = v`: replace the binding if the key is present,
otherwise add it. -/
def mput (m : List (String × α)) (k : String) (v : α) : List (String × α) :=
  match m with
  | [] => [(k, v)]
  | (k', v') :: rest => if k' = k then (k', v) :: rest else (k', v') :: mput rest k v

/-- Go map deletion `delete(m, k)`. -/
def mdel (k : String) : List (String × α) → List (String × α)
  | [] => []
  | (k', v) :: rest => if k' = k then mdel k rest else (k', v) :: mdel k rest

/-- Keys of an association list. -/
def mkeys (m : List (String × α)) : List String := m.map Prod.fst

theorem mkeys_cons (k : String) (v : α) (m : List (String × α)) :
    mkeys ((k, v) :: m) = k :: mkeys m := rfl

theorem mlookup_mput_self (m : List (String × α)) (k : String) (v : α) :
    mlookup k (mput m k v) = some v := by
  induction m with
  | nil => simp [mput, mlookup]
  | cons kv rest ih =>
    obtain ⟨k', v'⟩ := kv
    by_cases h : k' = k <;> simp [mput, mlookup, h, ih]

theorem mlookup_mput_ne (m : List (String × α)) (k k' : String) (v : α) (h : k' ≠ k) :
    mlookup k' (mput m k v) = mlookup k' m := by
  induction m with
  | nil => simp [mput, mlookup, Ne.symm h]
  | cons kv rest ih =>
    obtain ⟨k0, v0⟩ := kv
    by_cases h0 : k0 = k
    · subst h0
      simp [mput, mlookup, Ne.symm h]
    · simp [mput, mlookup, h0, ih]

theorem mlookup_mdel_self (m : List (String × α)) (k : String) :
    mlookup k (mdel k m) = none := by
  induction m with
  | nil => rfl
  | cons kv rest ih =>
    obtain ⟨k', v'⟩ := kv
    by_cases h : k' = k
    · simpa [mdel, h] using ih
    · simpa [mdel, h, mlookup] using ih

theorem mlookup_mdel_ne (m : List (String × α)) (k k' : String) (h : k' ≠ k) :
    mlookup k' (mdel k m) = mlookup k' m := by
  induction m with
  | nil => rfl
  | cons kv rest ih =>
    obtain ⟨k0, v0⟩ := kv
    by_cases h0 : k0 = k
    · subst h0
      simp [mdel, mlookup, Ne.symm h, ih]
    · simp [mdel, mlookup, h0, ih]

theorem mlookup_eq_none_of_not_mem_keys (m : List (String × α)) (k : String)
    (h : k ∉ mkeys m) : mlookup k m = none := by
  induction m with
  | nil => rfl
  | cons kv rest ih =>
    obtain ⟨k', v'⟩ := kv
    rw [mkeys_cons, List.mem_cons] at h
    push_neg at h
    rw [mlookup, if_neg (fun hh => h.1 hh.symm)]
    exact ih h.2

theorem mem_keys_of_mlookup_eq_some (m : List (String × α)) (k : String) (v : α)
    (h : mlookup k m = some v) : k ∈ mkeys m := by
  induction m with
  | nil => simp [mlookup] at h
  | cons kv rest ih =>
    obtain ⟨k', v'⟩ := kv
    rw [mkeys_cons]
    by_cases h0 : k' = k
    · simp [h0]
    · rw [mlookup, if_neg h0] at h
      exact List.mem_cons_of_mem _ (ih h)

end GoJira

/-! ## Decoding combinators (the `encoding/json` semantics used by issue.go)

Each known field decodes from a raw `Json` member value. `null` into a
string/int/bool/struct is a no-op keeping the previous value, `null` into a
pointer/slice/map sets it to nil, and a shape mismatch is a decode error. -/

namespace GoJira

/-- Decode a JSON member into a Go `string` field. -/
def decStr (v : Json) (old : String) : Option String :=
  match v with
  | Json.null => some old
  | Json.str s => some s
  | _ => none

/-- Decode a JSON member into a Go `int` field. -/
def decInt (v : Json) (old : Int) : Option Int :=
  match v with
  | Json.null => some old
  | Json.num n => some n
  | _ => none

/-- Decode a JSON member into a Go `bool` field. -/
def decBool (v : Json) (old : Bool) : Option Bool :=
  match v with
  | Json.null => some old
  | Json.jbool b => some b
  | _ => none

/-- Decode a JSON member into a non-pointer struct field: the object's members
are folded into the existing value with the struct's own member decoder. -/
def decObj (step : σ → String × Json → Option σ) (v : Json) (old : σ) : Option σ :=
  match v with
  | Json.null => some old
  | Json.obj kvs => kvs.foldlM step old
  | _ => none

/-- Decode a JSON member into a pointer-to-struct field: null sets the pointer
to nil, an object is decoded into the existing value (allocating the zero
value if the pointer was nil). -/
def decPtr (step : σ → String × Json → Option σ) (dflt : σ) (v : Json) (old : Option σ) :
    Option (Option σ) :=
  match v with
  | Json.null => some none
  | Json.obj kvs => (kvs.foldlM step (old.getD dflt)).map some
  | _ => none

/-- Decode a JSON member into a `*bool` field. -/
def decPtrBool (v : Json) : Option (Option Bool) :=
  match v with
  | Json.null => some none
  | Json.jbool b => some (some b)
  | _ => none

/-- Decode a JSON member into a slice of pointers to structs (`[]*T`): a null
element is a nil pointer, each object element is decoded into a fresh zero
value. -/
def decPtrList (step : σ → String × Json → Option σ) (dflt : σ) (v : Json) :
    Option (List (Option σ)) :=
  match v with
  | Json.null => some []
  | Json.arr xs =>
    xs.mapM (fun x =>
      match x with
      | Json.null => some none
      | Json.obj kvs => (kvs.foldlM step dflt).map some
      | _ => none)
  | _ => none

/-- Decode a JSON member into a `[]string` field (a null element leaves the
freshly grown element at its zero value, the empty string). -/
def decStrList (v : Json) : Option (List String) :=
  match v with
  | Json.null => some []
  | Json.arr xs =>
    xs.mapM (fun x =>
      match x with
      | Json.null => some ""
      | Json.str s => some s
      | _ => none)
  | _ => none

/-- Decode a JSON member into a slice of struct values (`[]T`). -/
def decValList (step : σ → String × Json → Option σ) (dflt : σ) (v : Json) :
    Option (List σ) :=
  match v with
  | Json.null => some []
  | Json.arr xs =>
    xs.mapM (fun x =>
      match x with
      | Json.null => some dflt
      | Json.obj kvs => kvs.foldlM step dflt
      | _ => none)
  | _ => none

/-! ## Marshalling helpers (the `json` tag semantics of the nested structs)

`MarshalJSON` passes nested pointer fields, slices and their elements to
`json.Marshal` unchanged, so they are encoded under their `json` tags; in
every struct of issue.go the `json` and `structs` tag keys coincide.
The helpers model one member each: the `A` variants have no `omitempty`,
the plain variants omit the member at the Go zero value. `json`'s
`omitempty` never applies to struct-typed members, which is why struct
members below always use an `A` variant or an explicit entry. -/

/-- Member for a string field tagged `omitempty`. -/
def sfield (k v : String) : List (String × Json) :=
  if v = "" then [] else [(k, Json.str v)]

/-- Member for a string field without `omitempty`. -/
def sfieldA (k v : String) : List (String × Json) := [(k, Json.str v)]

/-- Member for an int field tagged `omitempty`. -/
def ifield (k : String) (n : Int) : List (String × Json) :=
  if n = 0 then [] else [(k, Json.num n)]

/-- Member for an int field without `omitempty`. -/
def ifieldA (k : String) (n : Int) : List (String × Json) := [(k, Json.num n)]

/-- Member for a bool field tagged `omitempty`. -/
def bfield (k : String) (b : Bool) : List (String × Json) :=
  if b then [(k, Json.jbool b)] else []

/-- Member for a bool field without `omitempty`. -/
def bfieldA (k : String) (b : Bool) : List (String × Json) := [(k, Json.jbool b)]

/-- Member for a pointer field tagged `omitempty` (nil is omitted). -/
def ofield (k : String) (f : σ → Json) : Option σ → List (String × Json)
  | none => []
  | some x => [(k, f x)]

/-- Member for a pointer field without `omitempty` (nil encodes as null). -/
def ofieldA (k : String) (f : σ → Json) : Option σ → List (String × Json)
  | none => [(k, Json.null)]
  | some x => [(k, f x)]

/-- Encoding of a possibly-nil element of a pointer slice. -/
def optElem (f : σ → Json) : Option σ → Json
  | none => Json.null
  | some x => f x

/-- Member for a slice field tagged `omitempty` (empty is omitted). -/
def afield (k : String) (f : σ → Json) (xs : List σ) : List (String × Json) :=
  if xs.isEmpty then [] else [(k, Json.arr (xs.map f))]

end GoJira

namespace GoJira

/-! ## The nested structs of issue.go

Each struct mirrors its Go declaration: field order, `json` tag keys and
`omitempty` flags are taken from the source. Pointers become `Option`,
slices become `List` (with `[]*T` elements as `Option T`), `int` becomes
`Int`. For each struct, `zero` is the Go zero value, `step` decodes one
JSON object member (unknown keys are ignored, as `encoding/json` does),
and `toJson` is its `json.Marshal` encoding. -/

/-- AvatarUrls represents different dimensions of avatars / images. -/
structure AvatarUrls where
  four8X48 : String
  two4X24 : String
  one6X16 : String
  three2X32 : String
deriving Repr, DecidableEq

def AvatarUrls.zero : AvatarUrls := ⟨"", "", "", ""⟩

def AvatarUrls.step (a : AvatarUrls) : String × Json → Option AvatarUrls
  | ("48x48", v) => (decStr v a.four8X48).map (fun s => { a with four8X48 := s })
  | ("24x24", v) => (decStr v a.two4X24).map (fun s => { a with two4X24 := s })
  | ("16x16", v) => (decStr v a.one6X16).map (fun s => { a with one6X16 := s })
  | ("32x32", v) => (decStr v a.three2X32).map (fun s => { a with three2X32 := s })
  | _ => some a

def AvatarUrls.toJson (a : AvatarUrls) : Json :=
  Json.obj (sfield "48x48" a.four8X48 ++ sfield "24x24" a.two4X24 ++
    sfield "16x16" a.one6X16 ++ sfield "32x32" a.three2X32)

/-- User represents a user who is this JIRA issue assigned to. -/
structure User where
  self : String
  name : String
  key : String
  emailAddress : String
  avatarUrls : AvatarUrls
  displayName : String
  active : Bool
  timeZone : String
deriving Repr, DecidableEq

def User.zero : User := ⟨"", "", "", "", AvatarUrls.zero, "", false, ""⟩

def User.step (u : User) : String × Json → Option User
  | ("self", v) => (decStr v u.self).map (fun s => { u with self := s })
  | ("name", v) => (decStr v u.name).map (fun s => { u with name := s })
  | ("key", v) => (decStr v u.key).map (fun s => { u with key := s })
  | ("emailAddress", v) => (decStr v u.emailAddress).map (fun s => { u with emailAddress := s })
  | ("avatarUrls", v) => (decObj AvatarUrls.step v u.avatarUrls).map (fun a => { u with avatarUrls := a })
  | ("displayName", v) => (decStr v u.displayName).map (fun s => { u with displayName := s })
  | ("active", v) => (decBool v u.active).map (fun b => { u with active := b })
  | ("timeZone", v) => (decStr v u.timeZone).map (fun s => { u with timeZone := s })
  | _ => some u

/-- Encoding of User; `avatarUrls` is a struct-typed member, so its
`omitempty` has no effect and it is always present. -/
def User.toJson (u : User) : Json :=
  Json.obj (sfield "self" u.self ++ sfield "name" u.name ++ sfield "key" u.key ++
    sfield "emailAddress" u.emailAddress ++ [("avatarUrls", u.avatarUrls.toJson)] ++
    sfield "displayName" u.displayName ++ bfield "active" u.active ++
    sfield "timeZone" u.timeZone)

/-- IssueType represents a type of a JIRA issue. -/
structure IssueType where
  self : String
  id : String
  description : String
  iconUrl : String
  name : String
  subtask : Bool
  avatarId : Int
deriving Repr, DecidableEq

def IssueType.zero : IssueType := ⟨"", "", "", "", "", false, 0⟩

def IssueType.step (t : IssueType) : String × Json → Option IssueType
  | ("self", v) => (decStr v t.self).map (fun s => { t with self := s })
  | ("id", v) => (decStr v t.id).map (fun s => { t with id := s })
  | ("description", v) => (decStr v t.description).map (fun s => { t with description := s })
  | ("iconUrl", v) => (decStr v t.iconUrl).map (fun s => { t with iconUrl := s })
  | ("name", v) => (decStr v t.name).map (fun s => { t with name := s })
  | ("subtask", v) => (decBool v t.subtask).map (fun b => { t with subtask := b })
  | ("avatarId", v) => (decInt v t.avatarId).map (fun n => { t with avatarId := n })
  | _ => some t

def IssueType.toJson (t : IssueType) : Json :=
  Json.obj (sfield "self" t.self ++ sfield "id" t.id ++ sfield "description" t.description ++
    sfield "iconUrl" t.iconUrl ++ sfield "name" t.name ++ bfield "subtask" t.subtask ++
    ifield "avatarId" t.avatarId)

/-- Resolution represents a resolution of a JIRA issue; none of its tags
carry `omitempty`. -/
structure Resolution where
  self : String
  id : String
  description : String
  name : String
deriving Repr, DecidableEq

def Resolution.zero : Resolution := ⟨"", "", "", ""⟩

def Resolution.step (r : Resolution) : String × Json → Option Resolution
  | ("self", v) => (decStr v r.self).map (fun s => { r with self := s })
  | ("id", v) => (decStr v r.id).map (fun s => { r with id := s })
  | ("description", v) => (decStr v r.description).map (fun s => { r with description := s })
  | ("name", v) => (decStr v r.name).map (fun s => { r with name := s })
  | _ => some r

def Resolution.toJson (r : Resolution) : Json :=
  Json.obj (sfieldA "self" r.self ++ sfieldA "id" r.id ++
    sfieldA "description" r.description ++ sfieldA "name" r.name)

/-- Priority represents a priority of a JIRA issue. -/
structure Priority where
  self : String
  iconUrl : String
  name : String
  id : String
deriving Repr, DecidableEq

def Priority.zero : Priority := ⟨"", "", "", ""⟩

def Priority.step (p : Priority) : String × Json → Option Priority
  | ("self", v) => (decStr v p.self).map (fun s => { p with self := s })
  | ("iconUrl", v) => (decStr v p.iconUrl).map (fun s => { p with iconUrl := s })
  | ("name", v) => (decStr v p.name).map (fun s => { p with name := s })
  | ("id", v) => (decStr v p.id).map (fun s => { p with id := s })
  | _ => some p

def Priority.toJson (p : Priority) : Json :=
  Json.obj (sfield "self" p.self ++ sfield "iconUrl" p.iconUrl ++
    sfield "name" p.name ++ sfield "id" p.id)

/-- Watches represents how many users are observing a JIRA issue. -/
structure Watches where
  self : String
  watchCount : Int
  isWatching : Bool
deriving Repr, DecidableEq

def Watches.zero : Watches := ⟨"", 0, false⟩

def Watches.step (w : Watches) : String × Json → Option Watches
  | ("self", v) => (decStr v w.self).map (fun s => { w with self := s })
  | ("watchCount", v) => (decInt v w.watchCount).map (fun n => { w with watchCount := n })
  | ("isWatching", v) => (decBool v w.isWatching).map (fun b => { w with isWatching := b })
  | _ => some w

def Watches.toJson (w : Watches) : Json :=
  Json.obj (sfield "self" w.self ++ ifield "watchCount" w.watchCount ++
    bfield "isWatching" w.isWatching)

/-- Component represents a "component" of a JIRA issue. -/
structure Component where
  self : String
  id : String
  name : String
deriving Repr, DecidableEq

def Component.zero : Component := ⟨"", "", ""⟩

def Component.step (c : Component) : String × Json → Option Component
  | ("self", v) => (decStr v c.self).map (fun s => { c with self := s })
  | ("id", v) => (decStr v c.id).map (fun s => { c with id := s })
  | ("name", v) => (decStr v c.name).map (fun s => { c with name := s })
  | _ => some c

def Component.toJson (c : Component) : Json :=
  Json.obj (sfield "self" c.self ++ sfield "id" c.id ++ sfield "name" c.name)

/-- StatusCategory represents the category a status belongs to; no
`omitempty` tags. -/
structure StatusCategory where
  self : String
  id : Int
  name : String
  key : String
  colorName : String
deriving Repr, DecidableEq

def StatusCategory.zero : StatusCategory := ⟨"", 0, "", "", ""⟩

def StatusCategory.step (c : StatusCategory) : String × Json → Option StatusCategory
  | ("self", v) => (decStr v c.self).map (fun s => { c with self := s })
  | ("id", v) => (decInt v c.id).map (fun n => { c with id := n })
  | ("name", v) => (decStr v c.name).map (fun s => { c with name := s })
  | ("key", v) => (decStr v c.key).map (fun s => { c with key := s })
  | ("colorName", v) => (decStr v c.colorName).map (fun s => { c with colorName := s })
  | _ => some c

def StatusCategory.toJson (c : StatusCategory) : Json :=
  Json.obj (sfieldA "self" c.self ++ ifieldA "id" c.id ++ sfieldA "name" c.name ++
    sfieldA "key" c.key ++ sfieldA "colorName" c.colorName)

/-- Status represents the current status of a JIRA issue; no `omitempty`
tags. -/
structure Status where
  self : String
  description : String
  iconUrl : String
  name : String
  id : String
  statusCategory : StatusCategory
deriving Repr, DecidableEq

def Status.zero : Status := ⟨"", "", "", "", "", StatusCategory.zero⟩

def Status.step (st : Status) : String × Json → Option Status
  | ("self", v) => (decStr v st.self).map (fun s => { st with self := s })
  | ("description", v) => (decStr v st.description).map (fun s => { st with description := s })
  | ("iconUrl", v) => (decStr v st.iconUrl).map (fun s => { st with iconUrl := s })
  | ("name", v) => (decStr v st.name).map (fun s => { st with name := s })
  | ("id", v) => (decStr v st.id).map (fun s => { st with id := s })
  | ("statusCategory", v) =>
    (decObj StatusCategory.step v st.statusCategory).map (fun c => { st with statusCategory := c })
  | _ => some st

def Status.toJson (st : Status) : Json :=
  Json.obj (sfieldA "self" st.self ++ sfieldA "description" st.description ++
    sfieldA "iconUrl" st.iconUrl ++ sfieldA "name" st.name ++ sfieldA "id" st.id ++
    [("statusCategory", st.statusCategory.toJson)])

/-- Progress represents the progress of a JIRA issue; no `omitempty` tags. -/
structure Progress where
  progress : Int
  total : Int
deriving Repr, DecidableEq

def Progress.zero : Progress := ⟨0, 0⟩

def Progress.step (p : Progress) : String × Json → Option Progress
  | ("progress", v) => (decInt v p.progress).map (fun n => { p with progress := n })
  | ("total", v) => (decInt v p.total).map (fun n => { p with total := n })
  | _ => some p

def Progress.toJson (p : Progress) : Json :=
  Json.obj (ifieldA "progress" p.progress ++ ifieldA "total" p.total)

/-- Epic represents the epic to which an issue is associated; no `omitempty`
tags. -/
structure Epic where
  id : Int
  key : String
  self : String
  name : String
  summary : String
  done : Bool
deriving Repr, DecidableEq

def Epic.zero : Epic := ⟨0, "", "", "", "", false⟩

def Epic.step (e : Epic) : String × Json → Option Epic
  | ("id", v) => (decInt v e.id).map (fun n => { e with id := n })
  | ("key", v) => (decStr v e.key).map (fun s => { e with key := s })
  | ("self", v) => (decStr v e.self).map (fun s => { e with self := s })
  | ("name", v) => (decStr v e.name).map (fun s => { e with name := s })
  | ("summary", v) => (decStr v e.summary).map (fun s => { e with summary := s })
  | ("done", v) => (decBool v e.done).map (fun b => { e with done := b })
  | _ => some e

def Epic.toJson (e : Epic) : Json :=
  Json.obj (ifieldA "id" e.id ++ sfieldA "key" e.key ++ sfieldA "self" e.self ++
    sfieldA "name" e.name ++ sfieldA "summary" e.summary ++ bfieldA "done" e.done)

/-- CommentVisibility represents the visibility of a comment. -/
structure CommentVisibility where
  type : String
  value : String
deriving Repr, DecidableEq

def CommentVisibility.zero : CommentVisibility := ⟨"", ""⟩

def CommentVisibility.step (c : CommentVisibility) : String × Json → Option CommentVisibility
  | ("type", v) => (decStr v c.type).map (fun s => { c with type := s })
  | ("value", v) => (decStr v c.value).map (fun s => { c with value := s })
  | _ => some c

def CommentVisibility.toJson (c : CommentVisibility) : Json :=
  Json.obj (sfield "type" c.type ++ sfield "value" c.value)

/-- Comment represents a comment by a person to an issue in JIRA. -/
structure Comment where
  id : String
  self : String
  name : String
  author : User
  body : String
  updateAuthor : User
  updated : String
  created : String
  visibility : CommentVisibility
deriving Repr, DecidableEq

def Comment.zero : Comment :=
  ⟨"", "", "", User.zero, "", User.zero, "", "", CommentVisibility.zero⟩

def Comment.step (c : Comment) : String × Json → Option Comment
  | ("id", v) => (decStr v c.id).map (fun s => { c with id := s })
  | ("self", v) => (decStr v c.self).map (fun s => { c with self := s })
  | ("name", v) => (decStr v c.name).map (fun s => { c with name := s })
  | ("author", v) => (decObj User.step v c.author).map (fun u => { c with author := u })
  | ("body", v) => (decStr v c.body).map (fun s => { c with body := s })
  | ("updateAuthor", v) => (decObj User.step v c.updateAuthor).map (fun u => { c with updateAuthor := u })
  | ("updated", v) => (decStr v c.updated).map (fun s => { c with updated := s })
  | ("created", v) => (decStr v c.created).map (fun s => { c with created := s })
  | ("visibility", v) =>
    (decObj CommentVisibility.step v c.visibility).map (fun w => { c with visibility := w })
  | _ => some c

/-- Encoding of Comment; `author`, `updateAuthor` and `visibility` are
struct-typed members, so their `omitempty` has no effect. -/
def Comment.toJson (c : Comment) : Json :=
  Json.obj (sfield "id" c.id ++ sfield "self" c.self ++ sfield "name" c.name ++
    [("author", c.author.toJson)] ++ sfield "body" c.body ++
    [("updateAuthor", c.updateAuthor.toJson)] ++ sfield "updated" c.updated ++
    sfield "created" c.created ++ [("visibility", c.visibility.toJson)])

/-- Comments represents a list of Comment. -/
structure Comments where
  comments : List (Option Comment)
deriving Repr, DecidableEq

def Comments.zero : Comments := ⟨[]⟩

def Comments.step (cs : Comments) : String × Json → Option Comments
  | ("comments", v) => (decPtrList Comment.step Comment.zero v).map (fun l => { cs with comments := l })
  | _ => some cs

def Comments.toJson (cs : Comments) : Json :=
  Json.obj (afield "comments" (optElem Comment.toJson) cs.comments)

end GoJira

namespace GoJira

/-- Read exactly `n` decimal digits, returning their value and the rest. -/
def chkDigits : Nat → List Char → Option (Nat × List Char)
  | 0, cs => some (0, cs)
  | _ + 1, [] => none
  | n + 1, c :: cs =>
    if c.isDigit then
      (chkDigits n cs).map (fun p => ((c.toNat - 48) * 10 ^ n + p.1, p.2))
    else none

/-- Consume one expected character. -/
def chkChar (c : Char) : List Char → Option (List Char)
  | [] => none
  | x :: xs => if x = c then some xs else none

/-- Count leading decimal digits and return the rest. -/
def dropDigits : List Char → Nat × List Char
  | [] => (0, [])
  | c :: cs =>
    if c.isDigit then
      let p := dropDigits cs
      (p.1 + 1, p.2)
    else (0, c :: cs)

/-- Models `time.Parse` on the fixed jira layout `2006-01-02T15:04:05.999-0700`:
date and clock digits with range checks, an optional fractional-seconds part of
one to nine digits, and a signed four-digit numeric zone. The calendar
refinements of Go's parser (days per month) are not modelled; no claim depends
on exactly which strings are valid times. -/
def validJiraTime (s : String) : Bool :=
  (do
    let cs := s.toList
    let (_, cs) ← chkDigits 4 cs
    let cs ← chkChar '-' cs
    let (mo, cs) ← chkDigits 2 cs
    let cs ← chkChar '-' cs
    let (dy, cs) ← chkDigits 2 cs
    let cs ← chkChar 'T' cs
    let (hh, cs) ← chkDigits 2 cs
    let cs ← chkChar ':' cs
    let (mi, cs) ← chkDigits 2 cs
    let cs ← chkChar ':' cs
    let (ss, cs) ← chkDigits 2 cs
    let cs ← (match cs with
      | '.' :: rest =>
        let p := dropDigits rest
        if 1 ≤ p.1 ∧ p.1 ≤ 9 then some p.2 else none
      | other => some other)
    let cs ← (match cs with
      | c :: rest => if c = '+' ∨ c = '-' then some rest else none
      | [] => none)
    let (_, cs) ← chkDigits 4 cs
    if cs = [] ∧ 1 ≤ mo ∧ mo ≤ 12 ∧ 1 ≤ dy ∧ dy ≤ 31 ∧ hh ≤ 23 ∧ mi ≤ 59 ∧ ss ≤ 59 then
      some ()
    else none : Option Unit).isSome

/-- Time represents the Time definition of JIRA (`type Time time.Time`); the
embedding keeps the raw wire string that was parsed. -/
structure Time where
  raw : String
deriving Repr, DecidableEq

def Time.zero : Time := ⟨""⟩

/-- Custom decoding of jira.Time (its `UnmarshalJSON`): the raw value must be a
JSON string parsing under the fixed layout; anything else — including JSON
null, which `encoding/json` also hands to a custom unmarshaler — is an error. -/
def Time.dec (v : Json) : Option Time :=
  match v with
  | Json.str s => if validJiraTime s then some ⟨s⟩ else none
  | _ => none

/-- Marshalling of jira.Time: the defined type `Time` does not inherit
`time.Time`'s `MarshalJSON`, and all of `time.Time`'s fields are unexported, so
both the structs mapping (which keeps a struct with no exported fields as-is)
and `json.Marshal` render it as the empty object. -/
def Time.toJson (_ : Time) : Json := Json.obj []

/-- WorklogRecord represents one entry of a Worklog; no `omitempty` tags. -/
structure WorklogRecord where
  self : String
  author : User
  updateAuthor : User
  comment : String
  created : Time
  updated : Time
  started : Time
  timeSpent : String
  timeSpentSeconds : Int
  id : String
  issueId : String
deriving Repr, DecidableEq

def WorklogRecord.zero : WorklogRecord :=
  ⟨"", User.zero, User.zero, "", Time.zero, Time.zero, Time.zero, "", 0, "", ""⟩

def WorklogRecord.step (w : WorklogRecord) : String × Json → Option WorklogRecord
  | ("self", v) => (decStr v w.self).map (fun s => { w with self := s })
  | ("author", v) => (decObj User.step v w.author).map (fun u => { w with author := u })
  | ("updateAuthor", v) => (decObj User.step v w.updateAuthor).map (fun u => { w with updateAuthor := u })
  | ("comment", v) => (decStr v w.comment).map (fun s => { w with comment := s })
  | ("created", v) => (Time.dec v).map (fun t => { w with created := t })
  | ("updated", v) => (Time.dec v).map (fun t => { w with updated := t })
  | ("started", v) => (Time.dec v).map (fun t => { w with started := t })
  | ("timeSpent", v) => (decStr v w.timeSpent).map (fun s => { w with timeSpent := s })
  | ("timeSpentSeconds", v) => (decInt v w.timeSpentSeconds).map (fun n => { w with timeSpentSeconds := n })
  | ("id", v) => (decStr v w.id).map (fun s => { w with id := s })
  | ("issueId", v) => (decStr v w.issueId).map (fun s => { w with issueId := s })
  | _ => some w

def WorklogRecord.toJson (w : WorklogRecord) : Json :=
  Json.obj (sfieldA "self" w.self ++ [("author", w.author.toJson)] ++
    [("updateAuthor", w.updateAuthor.toJson)] ++ sfieldA "comment" w.comment ++
    [("created", w.created.toJson)] ++ [("updated", w.updated.toJson)] ++
    [("started", w.started.toJson)] ++ sfieldA "timeSpent" w.timeSpent ++
    ifieldA "timeSpentSeconds" w.timeSpentSeconds ++ sfieldA "id" w.id ++
    sfieldA "issueId" w.issueId)

/-- Worklog represents the work log of a JIRA issue; no `omitempty` tags,
and `worklogs` is a slice of struct values. -/
structure Worklog where
  startAt : Int
  maxResults : Int
  total : Int
  worklogs : List WorklogRecord
deriving Repr, DecidableEq

def Worklog.zero : Worklog := ⟨0, 0, 0, []⟩

def Worklog.step (w : Worklog) : String × Json → Option Worklog
  | ("startAt", v) => (decInt v w.startAt).map (fun n => { w with startAt := n })
  | ("maxResults", v) => (decInt v w.maxResults).map (fun n => { w with maxResults := n })
  | ("total", v) => (decInt v w.total).map (fun n => { w with total := n })
  | ("worklogs", v) =>
    (decValList WorklogRecord.step WorklogRecord.zero v).map (fun l => { w with worklogs := l })
  | _ => some w

def Worklog.toJson (w : Worklog) : Json :=
  Json.obj (ifieldA "startAt" w.startAt ++ ifieldA "maxResults" w.maxResults ++
    ifieldA "total" w.total ++ [("worklogs", Json.arr (w.worklogs.map WorklogRecord.toJson))])

/-- FixVersion represents a software release in which an issue is fixed. -/
structure FixVersion where
  archived : Option Bool
  id : String
  name : String
  projectId : Int
  releaseDate : String
  released : Option Bool
  self : String
  userReleaseDate : String
deriving Repr, DecidableEq

def FixVersion.zero : FixVersion := ⟨none, "", "", 0, "", none, "", ""⟩

def FixVersion.step (f : FixVersion) : String × Json → Option FixVersion
  | ("archived", v) => (decPtrBool v).map (fun b => { f with archived := b })
  | ("id", v) => (decStr v f.id).map (fun s => { f with id := s })
  | ("name", v) => (decStr v f.name).map (fun s => { f with name := s })
  | ("projectId", v) => (decInt v f.projectId).map (fun n => { f with projectId := n })
  | ("releaseDate", v) => (decStr v f.releaseDate).map (fun s => { f with releaseDate := s })
  | ("released", v) => (decPtrBool v).map (fun b => { f with released := b })
  | ("self", v) => (decStr v f.self).map (fun s => { f with self := s })
  | ("userReleaseDate", v) => (decStr v f.userReleaseDate).map (fun s => { f with userReleaseDate := s })
  | _ => some f

def FixVersion.toJson (f : FixVersion) : Json :=
  Json.obj (ofield "archived" Json.jbool f.archived ++ sfield "id" f.id ++
    sfield "name" f.name ++ ifield "projectId" f.projectId ++
    sfield "releaseDate" f.releaseDate ++ ofield "released" Json.jbool f.released ++
    sfield "self" f.self ++ sfield "userReleaseDate" f.userReleaseDate)

/-- Attachment represents a JIRA attachment. -/
structure Attachment where
  self : String
  id : String
  filename : String
  author : Option User
  created : String
  size : Int
  mimeType : String
  content : String
  thumbnail : String
deriving Repr, DecidableEq

def Attachment.zero : Attachment := ⟨"", "", "", none, "", 0, "", "", ""⟩

def Attachment.step (a : Attachment) : String × Json → Option Attachment
  | ("self", v) => (decStr v a.self).map (fun s => { a with self := s })
  | ("id", v) => (decStr v a.id).map (fun s => { a with id := s })
  | ("filename", v) => (decStr v a.filename).map (fun s => { a with filename := s })
  | ("author", v) => (decPtr User.step User.zero v a.author).map (fun u => { a with author := u })
  | ("created", v) => (decStr v a.created).map (fun s => { a with created := s })
  | ("size", v) => (decInt v a.size).map (fun n => { a with size := n })
  | ("mimeType", v) => (decStr v a.mimeType).map (fun s => { a with mimeType := s })
  | ("content", v) => (decStr v a.content).map (fun s => { a with content := s })
  | ("thumbnail", v) => (decStr v a.thumbnail).map (fun s => { a with thumbnail := s })
  | _ => some a

def Attachment.toJson (a : Attachment) : Json :=
  Json.obj (sfield "self" a.self ++ sfield "id" a.id ++ sfield "filename" a.filename ++
    ofield "author" User.toJson a.author ++ sfield "created" a.created ++
    ifield "size" a.size ++ sfield "mimeType" a.mimeType ++ sfield "content" a.content ++
    sfield "thumbnail" a.thumbnail)

/-- IssueLinkType represents a type of a link between two issues. -/
structure IssueLinkType where
  id : String
  self : String
  name : String
  inward : String
  outward : String
deriving Repr, DecidableEq

def IssueLinkType.zero : IssueLinkType := ⟨"", "", "", "", ""⟩

def IssueLinkType.step (t : IssueLinkType) : String × Json → Option IssueLinkType
  | ("id", v) => (decStr v t.id).map (fun s => { t with id := s })
  | ("self", v) => (decStr v t.self).map (fun s => { t with self := s })
  | ("name", v) => (decStr v t.name).map (fun s => { t with name := s })
  | ("inward", v) => (decStr v t.inward).map (fun s => { t with inward := s })
  | ("outward", v) => (decStr v t.outward).map (fun s => { t with outward := s })
  | _ => some t

def IssueLinkType.toJson (t : IssueLinkType) : Json :=
  Json.obj (sfield "id" t.id ++ sfield "self" t.self ++ sfieldA "name" t.name ++
    sfieldA "inward" t.inward ++ sfieldA "outward" t.outward)

/-- IssueLink represents a link between two issues. The `outwardIssue` and
`inwardIssue` members point to full Issue records; to keep the embedding's
types well-founded these nested issue payloads are carried as raw JSON — no
claim depends on decoding inside them. Their tags have no `omitempty`, so a
nil pointer encodes as null. -/
structure IssueLink where
  id : String
  self : String
  type : IssueLinkType
  outwardIssue : Option Json
  inwardIssue : Option Json
  comment : Option Comment
deriving Repr

def IssueLink.zero : IssueLink := ⟨"", "", IssueLinkType.zero, none, none, none⟩

def IssueLink.step (l : IssueLink) : String × Json → Option IssueLink
  | ("id", v) => (decStr v l.id).map (fun s => { l with id := s })
  | ("self", v) => (decStr v l.self).map (fun s => { l with self := s })
  | ("type", v) => (decObj IssueLinkType.step v l.type).map (fun t => { l with type := t })
  | ("outwardIssue", v) =>
    (match v with
      | Json.null => some none
      | other => some (some other) : Option (Option Json)).map (fun j => { l with outwardIssue := j })
  | ("inwardIssue", v) =>
    (match v with
      | Json.null => some none
      | other => some (some other) : Option (Option Json)).map (fun j => { l with inwardIssue := j })
  | ("comment", v) => (decPtr Comment.step Comment.zero v l.comment).map (fun c => { l with comment := c })
  | _ => some l

def IssueLink.toJson (l : IssueLink) : Json :=
  Json.obj (sfield "id" l.id ++ sfield "self" l.self ++ [("type", l.type.toJson)] ++
    ofieldA "outwardIssue" (fun j => j) l.outwardIssue ++
    ofieldA "inwardIssue" (fun j => j) l.inwardIssue ++
    ofield "comment" Comment.toJson l.comment)

/-- Subtasks represents all issues of a parent issue; no `omitempty` tags.
Its `fields` member is a full nested IssueFields payload; to keep the
embedding's types well-founded it is carried as raw JSON — no claim depends
on decoding inside it. -/
structure Subtasks where
  id : String
  key : String
  self : String
  fields : Json
deriving Repr

def Subtasks.zero : Subtasks := ⟨"", "", "", Json.null⟩

def Subtasks.step (s : Subtasks) : String × Json → Option Subtasks
  | ("id", v) => (decStr v s.id).map (fun x => { s with id := x })
  | ("key", v) => (decStr v s.key).map (fun x => { s with key := x })
  | ("self", v) => (decStr v s.self).map (fun x => { s with self := x })
  | ("fields", v) => some { s with fields := v }
  | _ => some s

def Subtasks.toJson (s : Subtasks) : Json :=
  Json.obj (sfieldA "id" s.id ++ sfieldA "key" s.key ++ sfieldA "self" s.self ++
    [("fields", s.fields)])

/-- Modelled from the spec: the repository's `Project` type lives outside
issue.go (project.go is not part of the provided source). The spec describes
it as a project reference populated from "project metadata (name +
identifier)", so the model keeps exactly a `name` and an `id`, both strings
tagged `omitempty` like every other reference type here. -/
structure Project where
  id : String
  name : String
deriving Repr, DecidableEq

def Project.zero : Project := ⟨"", ""⟩

def Project.step (p : Project) : String × Json → Option Project
  | ("id", v) => (decStr v p.id).map (fun s => { p with id := s })
  | ("name", v) => (decStr v p.name).map (fun s => { p with name := s })
  | _ => some p

def Project.toJson (p : Project) : Json :=
  Json.obj (sfield "id" p.id ++ sfield "name" p.name)

/-- Values held by a `tcontainer.MarshalMap` (`map[string]interface{}`): either
a raw JSON value (what the generic decode of `UnmarshalJSON` deposits) or one
of the typed Go values that `InitIssueWithMetaAndFields` deposits. -/
inductive MVal where
  | js (j : Json) : MVal
  | strV (s : String) : MVal
  | strs (ss : List String) : MVal
  | comps (cs : List Component) : MVal
  | proj (p : Project) : MVal
  | prio (p : Priority) : MVal
  | usr (u : User) : MVal
  | itype (t : IssueType) : MVal
deriving Repr

/-- Encoding of a dynamic-store value when the flattened map is passed to
`json.Marshal`: raw JSON re-encodes as itself, the typed Go values encode
under their `json` tags. -/
def MVal.toJson : MVal → Json
  | MVal.js j => j
  | MVal.strV s => Json.str s
  | MVal.strs ss => Json.arr (ss.map Json.str)
  | MVal.comps cs => Json.arr (cs.map Component.toJson)
  | MVal.proj p => p.toJson
  | MVal.prio p => p.toJson
  | MVal.usr u => u.toJson
  | MVal.itype t => t.toJson

/-- A `tcontainer.MarshalMap` as used for the dynamic store. -/
abbrev MarshalMap := List (String × MVal)

end GoJira

namespace GoJira

/-- IssueFields represents single fields of a JIRA issue (issue.go lines
66–108), in source declaration order. `Unknowns` is the dynamic store, a
`tcontainer.MarshalMap`; it has no tags and its Go zero value is a nil map,
modelled as `none`. -/
structure IssueFields where
  type : IssueType
  project : Project
  resolution : Option Resolution
  priority : Option Priority
  resolutiondate : String
  created : String
  watches : Option Watches
  assignee : Option User
  updated : String
  description : String
  summary : String
  creator : Option User
  reporter : Option User
  components : List (Option Component)
  status : Option Status
  progress : Option Progress
  aggregateProgress : Option Progress
  worklog : Option Worklog
  issueLinks : List (Option IssueLink)
  comments : Option Comments
  fixVersions : List (Option FixVersion)
  labels : List String
  subtasks : List (Option Subtasks)
  attachments : List (Option Attachment)
  epic : Option Epic
  unknowns : Option MarshalMap
  dueDate : String
  justification : String
  rollbackPlan : String
deriving Repr

/-- The Go zero value `new(IssueFields)`. -/
def IssueFields.init : IssueFields :=
  { type := IssueType.zero
    project := Project.zero
    resolution := none
    priority := none
    resolutiondate := ""
    created := ""
    watches := none
    assignee := none
    updated := ""
    description := ""
    summary := ""
    creator := none
    reporter := none
    components := []
    status := none
    progress := none
    aggregateProgress := none
    worklog := none
    issueLinks := []
    comments := none
    fixVersions := []
    labels := []
    subtasks := []
    attachments := []
    epic := none
    unknowns := none
    dueDate := ""
    justification := ""
    rollbackPlan := "" }

/-- The reflection table walked by `UnmarshalJSON`'s tag loop: every struct
field of IssueFields with its raw `json` tag, in declaration order.
`Unknowns` is the one field with an empty tag. -/
def issueFieldsTags : List (String × String) :=
  [("Type", "issuetype"),
   ("Project", "project,omitempty"),
   ("Resolution", "resolution,omitempty"),
   ("Priority", "priority,omitempty"),
   ("Resolutiondate", "resolutiondate,omitempty"),
   ("Created", "created,omitempty"),
   ("Watches", "watches,omitempty"),
   ("Assignee", "assignee,omitempty"),
   ("Updated", "updated,omitempty"),
   ("Description", "description,omitempty"),
   ("Summary", "summary"),
   ("Creator", "Creator,omitempty"),
   ("Reporter", "reporter,omitempty"),
   ("Components", "components,omitempty"),
   ("Status", "status,omitempty"),
   ("Progress", "progress,omitempty"),
   ("AggregateProgress", "aggregateprogress,omitempty"),
   ("Worklog", "worklog,omitempty"),
   ("IssueLinks", "issuelinks,omitempty"),
   ("Comments", "comment,omitempty"),
   ("FixVersions", "fixVersions,omitempty"),
   ("Labels", "labels,omitempty"),
   ("Subtasks", "subtasks,omitempty"),
   ("Attachments", "attachment,omitempty"),
   ("Epic", "epic,omitempty"),
   ("Unknowns", ""),
   ("DueDate", "duedate,omitempty"),
   ("Justification", "customfield_10218,omitempty"),
   ("RollbackPlan", "customfield_10220,omitempty")]

/-- Splitting on a single-character separator, accumulating the current
segment: a structural-recursion model of `strings.Split` for the one-character
separators used by issue.go (`,`). -/
def splitOnCharAux (sep : Char) : List Char → List Char → List (List Char)
  | [], acc => [acc.reverse]
  | c :: cs, acc =>
    if c = sep then acc.reverse :: splitOnCharAux sep cs []
    else splitOnCharAux sep cs (c :: acc)

/-- Models `strings.Split(tag, ",")`. -/
def splitComma (tag : String) : List String :=
  (splitOnCharAux ',' tag.toList []).map List.asString

/-- The tag-deletion loop of `UnmarshalJSON` (issue.go lines 147–166) over an
arbitrary tag table: an empty tag is skipped, otherwise the first
comma-separated tag component is deleted from the generic map. The source's
error branch for an empty `strings.Split` result is unreachable (splitting a
non-empty string yields at least one component) and is a no-op here. -/
def eraseTagged : List (String × String) → MarshalMap → MarshalMap
  | [], m => m
  | (_, tag) :: rest, m =>
    if tag = "" then eraseTagged rest m
    else
      match splitComma tag with
      | [] => eraseTagged rest m
      | k :: _ => eraseTagged rest (mdel k m)

/-- Deletion of every recognized known-field key from the generic map. -/
def eraseKnown (m : MarshalMap) : MarshalMap := eraseTagged issueFieldsTags m

/-- The recognized external keys of a tag table: the first comma-separated
component of each non-empty `json` tag (mirroring `eraseTagged` branch for
branch). -/
def taggedKeys : List (String × String) → List String
  | [] => []
  | (_, tag) :: rest =>
    if tag = "" then taggedKeys rest
    else
      match splitComma tag with
      | [] => taggedKeys rest
      | k :: _ => k :: taggedKeys rest

/-- The recognized known-field external keys of IssueFields. -/
def knownJsonKeys : List String := taggedKeys issueFieldsTags

/-- Go map bulk assignment: `for k, v := range l { m[k] = v }`. -/
def putAll (init : MarshalMap) (l : MarshalMap) : MarshalMap :=
  l.foldl (fun m kv => mput m kv.1 kv.2) init

/-- Generic decode of a JSON object's members into a fresh
`map[string]interface{}` (Go map semantics: a later duplicate key overwrites
the earlier one). -/
def gmap (kvs : List (String × Json)) : MarshalMap :=
  putAll [] (kvs.map (fun kv => (kv.1, MVal.js kv.2)))

/-- The second, generic decode of `UnmarshalJSON`
(`json.Unmarshal(data, &totalMap)`): a JSON object fills the fresh map; the
JSON null document stores the zero value into the map variable, setting
`totalMap` to nil (`none`) without an error; anything else is a decode
error. -/
def genericUnmarshal : Json → Option (Option MarshalMap)
  | Json.null => some none
  | Json.obj kvs => some (some (gmap kvs))
  | _ => none

/-- One member assignment of the first, structured decode
(`json.Unmarshal(data, &aux)`): the member key is matched against the `json`
tag names of IssueFields; the untagged `Unknowns` field is matched by its
field name, and decodes as a map (null sets it to nil, an object's members
are added to the existing map); unrecognized keys are ignored. -/
def typedStep (i : IssueFields) : String × Json → Option IssueFields
  | ("issuetype", v) => (decObj IssueType.step v i.type).map (fun x => { i with type := x })
  | ("project", v) => (decObj Project.step v i.project).map (fun x => { i with project := x })
  | ("resolution", v) =>
    (decPtr Resolution.step Resolution.zero v i.resolution).map (fun x => { i with resolution := x })
  | ("priority", v) =>
    (decPtr Priority.step Priority.zero v i.priority).map (fun x => { i with priority := x })
  | ("resolutiondate", v) => (decStr v i.resolutiondate).map (fun x => { i with resolutiondate := x })
  | ("created", v) => (decStr v i.created).map (fun x => { i with created := x })
  | ("watches", v) =>
    (decPtr Watches.step Watches.zero v i.watches).map (fun x => { i with watches := x })
  | ("assignee", v) =>
    (decPtr User.step User.zero v i.assignee).map (fun x => { i with assignee := x })
  | ("updated", v) => (decStr v i.updated).map (fun x => { i with updated := x })
  | ("description", v) => (decStr v i.description).map (fun x => { i with description := x })
  | ("summary", v) => (decStr v i.summary).map (fun x => { i with summary := x })
  | ("Creator", v) =>
    (decPtr User.step User.zero v i.creator).map (fun x => { i with creator := x })
  | ("reporter", v) =>
    (decPtr User.step User.zero v i.reporter).map (fun x => { i with reporter := x })
  | ("components", v) =>
    (decPtrList Component.step Component.zero v).map (fun x => { i with components := x })
  | ("status", v) =>
    (decPtr Status.step Status.zero v i.status).map (fun x => { i with status := x })
  | ("progress", v) =>
    (decPtr Progress.step Progress.zero v i.progress).map (fun x => { i with progress := x })
  | ("aggregateprogress", v) =>
    (decPtr Progress.step Progress.zero v i.aggregateProgress).map
      (fun x => { i with aggregateProgress := x })
  | ("worklog", v) =>
    (decPtr Worklog.step Worklog.zero v i.worklog).map (fun x => { i with worklog := x })
  | ("issuelinks", v) =>
    (decPtrList IssueLink.step IssueLink.zero v).map (fun x => { i with issueLinks := x })
  | ("comment", v) =>
    (decPtr Comments.step Comments.zero v i.comments).map (fun x => { i with comments := x })
  | ("fixVersions", v) =>
    (decPtrList FixVersion.step FixVersion.zero v).map (fun x => { i with fixVersions := x })
  | ("labels", v) => (decStrList v).map (fun x => { i with labels := x })
  | ("subtasks", v) =>
    (decPtrList Subtasks.step Subtasks.zero v).map (fun x => { i with subtasks := x })
  | ("attachment", v) =>
    (decPtrList Attachment.step Attachment.zero v).map (fun x => { i with attachments := x })
  | ("epic", v) => (decPtr Epic.step Epic.zero v i.epic).map (fun x => { i with epic := x })
  | ("Unknowns", v) =>
    match v with
    | Json.null => some { i with unknowns := none }
    | Json.obj kvs =>
      let m0 := i.unknowns.getD []
      some { i with unknowns := some (putAll m0 (kvs.map (fun kv => (kv.1, MVal.js kv.2)))) }
    | _ => none
  | ("duedate", v) => (decStr v i.dueDate).map (fun x => { i with dueDate := x })
  | ("customfield_10218", v) => (decStr v i.justification).map (fun x => { i with justification := x })
  | ("customfield_10220", v) => (decStr v i.rollbackPlan).map (fun x => { i with rollbackPlan := x })
  | _ => some i

/-- The structured decode walks the object's members in document order,
assigning in place; on the first failing member it stops, keeping the
assignments already made (as `encoding/json` decoding into `&aux` does —
an error does not roll the target back). -/
def typedFold : IssueFields → List (String × Json) → IssueFields × Bool
  | i, [] => (i, true)
  | i, kv :: rest =>
    match typedStep i kv with
    | none => (i, false)
    | some i' => typedFold i' rest

/-- The first, structured decode of `UnmarshalJSON`: JSON null is a no-op
success, a JSON object is decoded member by member, anything else is a decode
error. -/
def typedDecode (i : IssueFields) (data : Json) : IssueFields × Bool :=
  match data with
  | Json.null => (i, true)
  | Json.obj kvs => typedFold i kvs
  | _ => (i, false)

/-- UnmarshalJSON (issue.go lines 127–172): the structured decode, then the
generic decode of the same raw data, then the tag loop stripping every
recognized known-field key from the generic map, whose remainder is assigned
to `Unknowns`. When the generic decode left the map nil (the null document),
the loop's guarded deletes are no-ops and nil itself is assigned. The `Bool`
is `err == nil`; the returned payload is the receiver after the call (mutated
in place even when an error is returned). -/
def IssueFields.UnmarshalJSON (i : IssueFields) (data : Json) : IssueFields × Bool :=
  match typedDecode i data with
  | (i1, false) => (i1, false)
  | (i1, true) =>
    match genericUnmarshal data with
    | none => (i1, false)
    | some totalMap => ({ i1 with unknowns := totalMap.map eraseKnown }, true)

/-- One row of the `structs.Map` rendering of IssueFields: the field's
`structs` tag key (identical to its `json` tag key for every field of
IssueFields), its `omitempty` flag, its rendered value and its Go-zero test.
Go's structs `IsZero` distinguishes a nil slice from an empty non-nil slice;
the embedding's lists identify the two, which no claim observes. -/
structure FieldDesc where
  skey : String
  omitEmpty : Bool
  value : IssueFields → MVal
  zeroAt : IssueFields → Bool

/-- The `structs.Map` rows for the tagged fields of IssueFields, in
declaration order. The untagged `Unknowns` field is emitted by `structs.Map`
under its field name, but `MarshalJSON` unconditionally merges its entries
over the map and then deletes the `"Unknowns"` key, so the placeholder entry
itself is never observable; `mergedPairs` below performs that merge and
delete directly. -/
def issueFieldDescs : List FieldDesc :=
  [⟨"issuetype", false, fun i => MVal.js i.type.toJson, fun i => decide (i.type = IssueType.zero)⟩,
   ⟨"project", true, fun i => MVal.js i.project.toJson, fun i => decide (i.project = Project.zero)⟩,
   ⟨"resolution", true, fun i => MVal.js (optElem Resolution.toJson i.resolution),
     fun i => i.resolution.isNone⟩,
   ⟨"priority", true, fun i => MVal.js (optElem Priority.toJson i.priority),
     fun i => i.priority.isNone⟩,
   ⟨"resolutiondate", true, fun i => MVal.js (Json.str i.resolutiondate),
     fun i => decide (i.resolutiondate = "")⟩,
   ⟨"created", true, fun i => MVal.js (Json.str i.created), fun i => decide (i.created = "")⟩,
   ⟨"watches", true, fun i => MVal.js (optElem Watches.toJson i.watches),
     fun i => i.watches.isNone⟩,
   ⟨"assignee", true, fun i => MVal.js (optElem User.toJson i.assignee),
     fun i => i.assignee.isNone⟩,
   ⟨"updated", true, fun i => MVal.js (Json.str i.updated), fun i => decide (i.updated = "")⟩,
   ⟨"description", true, fun i => MVal.js (Json.str i.description),
     fun i => decide (i.description = "")⟩,
   ⟨"summary", false, fun i => MVal.js (Json.str i.summary), fun i => decide (i.summary = "")⟩,
   ⟨"Creator", true, fun i => MVal.js (optElem User.toJson i.creator), fun i => i.creator.isNone⟩,
   ⟨"reporter", true, fun i => MVal.js (optElem User.toJson i.reporter),
     fun i => i.reporter.isNone⟩,
   ⟨"components", true,
     fun i => MVal.js (Json.arr (i.components.map (optElem Component.toJson))),
     fun i => i.components.isEmpty⟩,
   ⟨"status", true, fun i => MVal.js (optElem Status.toJson i.status), fun i => i.status.isNone⟩,
   ⟨"progress", true, fun i => MVal.js (optElem Progress.toJson i.progress),
     fun i => i.progress.isNone⟩,
   ⟨"aggregateprogress", true, fun i => MVal.js (optElem Progress.toJson i.aggregateProgress),
     fun i => i.aggregateProgress.isNone⟩,
   ⟨"worklog", true, fun i => MVal.js (optElem Worklog.toJson i.worklog),
     fun i => i.worklog.isNone⟩,
   ⟨"issuelinks", true,
     fun i => MVal.js (Json.arr (i.issueLinks.map (optElem IssueLink.toJson))),
     fun i => i.issueLinks.isEmpty⟩,
   ⟨"comment", true, fun i => MVal.js (optElem Comments.toJson i.comments),
     fun i => i.comments.isNone⟩,
   ⟨"fixVersions", true,
     fun i => MVal.js (Json.arr (i.fixVersions.map (optElem FixVersion.toJson))),
     fun i => i.fixVersions.isEmpty⟩,
   ⟨"labels", true, fun i => MVal.js (Json.arr (i.labels.map Json.str)),
     fun i => i.labels.isEmpty⟩,
   ⟨"subtasks", true,
     fun i => MVal.js (Json.arr (i.subtasks.map (optElem Subtasks.toJson))),
     fun i => i.subtasks.isEmpty⟩,
   ⟨"attachment", true,
     fun i => MVal.js (Json.arr (i.attachments.map (optElem Attachment.toJson))),
     fun i => i.attachments.isEmpty⟩,
   ⟨"epic", true, fun i => MVal.js (optElem Epic.toJson i.epic), fun i => i.epic.isNone⟩,
   ⟨"duedate", true, fun i => MVal.js (Json.str i.dueDate), fun i => decide (i.dueDate = "")⟩,
   ⟨"customfield_10218", true, fun i => MVal.js (Json.str i.justification),
     fun i => decide (i.justification = "")⟩,
   ⟨"customfield_10220", true, fun i => MVal.js (Json.str i.rollbackPlan),
     fun i => decide (i.rollbackPlan = "")⟩]

/-- The `structs.Map(i)` rendering of the tagged fields: each row is emitted
under its structs key unless it is tagged `omitempty` and holds its Go zero
value. -/
def baseRows (l : List FieldDesc) (i : IssueFields) : MarshalMap :=
  match l with
  | [] => []
  | fd :: rest =>
    if fd.omitEmpty && fd.zeroAt i then baseRows rest i
    else (fd.skey, fd.value i) :: baseRows rest i

def structsBase (i : IssueFields) : MarshalMap := baseRows issueFieldDescs i

/-- The flattened map built by `MarshalJSON` (issue.go lines 112–123): every
dynamic-store entry is assigned over the structs map under its own key
(overwriting on collision), then the `"Unknowns"` key is deleted. A nil
dynamic store contributes nothing (ranging over a nil map is empty). -/
def mergedPairs (i : IssueFields) : MarshalMap :=
  mdel "Unknowns" (putAll (structsBase i) (i.unknowns.getD []))

/-- MarshalJSON: the flattened map encoded as a single JSON object. Go's map
iteration order is not observable and `json.Marshal` sorts map keys; the
embedding keeps field-declaration order with dynamic entries appended, and
every theorem about the output is stated via key lookup. -/
def IssueFields.MarshalJSON (i : IssueFields) : Json :=
  Json.obj ((mergedPairs i).map (fun kv => (kv.1, kv.2.toJson)))

/-- Issue represents a JIRA issue. -/
structure Issue where
  expand : String
  id : String
  self : String
  key : String
  fields : Option IssueFields
deriving Repr

def Issue.zero : Issue := ⟨"", "", "", "", none⟩

end GoJira

namespace GoJira

/-- Errors returned by `InitIssueWithMetaAndFields`; each constructor carries
exactly what the source's error message names. -/
inductive BuildErr where
  | keyNotFound (key : String) : BuildErr
  | valueNotFound (path : String) : BuildErr
  | unsupportedType (valueType key : String) : BuildErr
deriving Repr, DecidableEq

/-- Modelled from the spec: `MetaProject` lives outside issue.go; per the
spec it is "project metadata (name + identifier)". -/
structure MetaProject where
  name : String
  id : String
deriving Repr, DecidableEq

/-- Modelled from the spec: `MetaIssueType` lives outside issue.go. Per the
spec it exposes a human-name → internal-key table (`GetAllFields`) and a
metadata tree addressed by slash-separated paths such as
`fieldKey/schema/type` yielding string leaves (`Fields.String`). -/
structure MetaIssueType where
  allFields : List (String × String)
  fields : List (String × String)
deriving Repr, DecidableEq

/-- Modelled from the spec: `metaIssuetype.Fields.String(path)` — the
slash-path lookup in the metadata tree, failing when the path yields no
string leaf. -/
def MetaIssueType.fieldsString (mit : MetaIssueType) (path : String) : Option String :=
  mlookup path mit.fields

/-- One iteration of the `InitIssueWithMetaAndFields` loop (issue.go lines
694–740): resolve the display name through the name table, look up the
declared schema type, and coerce the string value per the dispatch table,
yielding the internal key and the coerced value to deposit. -/
def entryCoerce (mp : MetaProject) (mit : MetaIssueType) (kv : String × String) :
    Except BuildErr (String × MVal) :=
  match mlookup kv.1 mit.allFields with
  | none => Except.error (BuildErr.keyNotFound kv.1)
  | some jiraKey =>
    match mit.fieldsString (jiraKey ++ "/schema/type") with
    | none => Except.error (BuildErr.valueNotFound (jiraKey ++ "/schema/type"))
    | some valueType =>
      match valueType with
      | "array" =>
        match mit.fieldsString (jiraKey ++ "/schema/items") with
        | none => Except.error (BuildErr.valueNotFound (jiraKey ++ "/schema/items"))
        | some elemType =>
          match elemType with
          | "component" =>
            Except.ok (jiraKey, MVal.comps [{ Component.zero with name := kv.2 }])
          | _ => Except.ok (jiraKey, MVal.strs [kv.2])
      | "string" => Except.ok (jiraKey, MVal.strV kv.2)
      | "date" => Except.ok (jiraKey, MVal.strV kv.2)
      | "any" => Except.ok (jiraKey, MVal.strV kv.2)
      | "project" => Except.ok (jiraKey, MVal.proj { name := mp.name, id := mp.id })
      | "priority" => Except.ok (jiraKey, MVal.prio { Priority.zero with name := kv.2 })
      | "user" => Except.ok (jiraKey, MVal.usr { User.zero with name := kv.2 })
      | "issuetype" => Except.ok (jiraKey, MVal.itype { IssueType.zero with name := kv.2 })
      | _ => Except.error (BuildErr.unsupportedType valueType kv.1)

/-- The loop of `InitIssueWithMetaAndFields` over the user's field map: each
entry is coerced and deposited into the accumulating dynamic store under its
internal key; the first failure aborts the build. -/
def initLoop (mp : MetaProject) (mit : MetaIssueType) :
    List (String × String) → MarshalMap → Except BuildErr MarshalMap
  | [], acc => Except.ok acc
  | kv :: rest, acc =>
    match entryCoerce mp mit kv with
    | Except.error e => Except.error e
    | Except.ok (jiraKey, mv) => initLoop mp mit rest (mput acc jiraKey mv)

/-- InitIssueWithMetaAndFields (issue.go lines 687–746): a fresh Issue whose
fields payload starts from the zero value with `Unknowns` assigned a fresh
map, filled by the dispatch loop; on any loop failure no Issue is produced.
The Go `fieldsConfig` is a map with unspecified iteration order; the
embedding fixes the list order, and the theorems about the builder are
order-independent. -/
def InitIssueWithMetaAndFields (mp : MetaProject) (mit : MetaIssueType)
    (fieldsConfig : List (String × String)) : Except BuildErr Issue :=
  (initLoop mp mit fieldsConfig []).map
    (fun m => { Issue.zero with fields := some { IssueFields.init with unknowns := some m } })

/-- Discriminator for `Except`. -/
def isErr : Except ε α → Bool
  | Except.error _ => true
  | Except.ok _ => false

/-- Whether `pat` occurs starting at some position of the character list. -/
def subAux (pat : List Char) : List Char → Bool
  | [] => pat.isPrefixOf []
  | c :: cs => pat.isPrefixOf (c :: cs) || subAux pat cs

/-- Models `strings.Contains`. -/
def strContains (s pat : String) : Bool := subAux pat.toList s.toList

/-- Insertion of a rendered map entry in key order (for `fmt`'s sorted map
printing). -/
def insKV (p : String × String) : List (String × String) → List (String × String)
  | [] => [p]
  | q :: rest => if p.1 ≤ q.1 then p :: q :: rest else q :: insKV p rest

/-- Sort rendered map entries by key. -/
def sortKV : List (String × String) → List (String × String)
  | [] => []
  | p :: rest => insKV p (sortKV rest)

/-- Concatenate rendered values with single spaces, as `fmt` does inside
slice and map verbs. -/
def joinSpace : List String → String
  | [] => ""
  | [x] => x
  | x :: rest => x ++ " " ++ joinSpace rest

mutual

/-- Models `fmt.Sprint` applied to a generically decoded JSON value
(`interface{}`): strings print bare, numbers and bools with `%v`, nil as
`<nil>`, slices as space-separated values in brackets, and maps as
`map[k:v ...]` with keys sorted. -/
def jsonSprint : Json → String
  | Json.null => "<nil>"
  | Json.jbool b => if b then "true" else "false"
  | Json.num n => toString n
  | Json.str s => s
  | Json.arr xs => "[" ++ joinSpace (jsonSprintList xs) ++ "]"
  | Json.obj kvs =>
    "map[" ++ joinSpace ((sortKV (jsonSprintPairs kvs)).map (fun kv => kv.1 ++ ":" ++ kv.2)) ++ "]"

/-- Render a list of JSON values. -/
def jsonSprintList : List Json → List String
  | [] => []
  | x :: xs => jsonSprint x :: jsonSprintList xs

/-- Render the members of a JSON object. -/
def jsonSprintPairs : List (String × Json) → List (String × String)
  | [] => []
  | (k, v) :: rest => (k, jsonSprint v) :: jsonSprintPairs rest

end

/-- The unwrapping step of `GetCustomFields`: if the raw value is itself an
object with a `value` member, that nested value is substituted. -/
def flattenCustomValue (val : Json) : Json :=
  match val with
  | Json.obj kvs =>
    match mlookup "value" kvs with
    | some nested => nested
    | none => val
  | _ => val

/-- GetCustomFields (issue.go lines 601–634) after the transport step: the
response body has been generically decoded into a `map[string]interface{}`
(the argument). A missing `fields` key or a JSON null both yield the nil
interface and an empty result; a non-object `fields` fails the type assertion
and the loop is skipped; otherwise every key containing "customfield" is
added to the result, mapped to `fmt.Sprint` of its (possibly unwrapped)
value. `cfStep` is the loop body over one raw fields member. -/
def cfStep (cf : List (String × String)) (kv : String × Json) : List (String × String) :=
  if strContains kv.1 "customfield" then
    mput cf kv.1 (jsonSprint (flattenCustomValue kv.2))
  else cf

/-- GetCustomFields proper: extract the raw `fields` object and run the
customfield loop over its members. -/
def GetCustomFields (issue : List (String × Json)) : List (String × String) :=
  match mlookup "fields" issue with
  | none => []
  | some Json.null => []
  | some (Json.obj kvs) => kvs.foldl cfStep []
  | some _ => []

end GoJira

namespace GoJira

/-- The per-entry failure condition of the builder, written out as the spec
describes it: the display name does not resolve, or the resolved key has no
declared schema type, or the declared type is `array` without a declared item
type, or the declared type is outside the supported set. -/
def entryFailsSpec (mit : MetaIssueType) (kv : String × String) : Bool :=
  match mlookup kv.1 mit.allFields with
  | none => true
  | some jk =>
    match mit.fieldsString (jk ++ "/schema/type") with
    | none => true
    | some valueType =>
      match valueType with
      | "array" => (mit.fieldsString (jk ++ "/schema/items")).isNone
      | "string" => false
      | "date" => false
      | "any" => false
      | "project" => false
      | "priority" => false
      | "user" => false
      | "issuetype" => false
      | _ => true

end GoJira

namespace GoJira

/-! ## Concrete inputs used by the witnesses and counterexamples -/

/-- The spec's end-to-end scenario wire object. -/
def wScenario : Json :=
  Json.obj [("summary", Json.str "Bug"), ("customfield_10218", Json.str "because")]

/-- A wire object with one genuinely dynamic key. -/
def wRound : Json :=
  Json.obj [("summary", Json.str "Bug"), ("customfield_777", Json.str "x")]

/-- A wire object whose only key is the literal `Unknowns`. -/
def wUnknowns : Json :=
  Json.obj [("Unknowns", Json.obj [("a", Json.num 1)])]

/-- A wire object whose first member decodes and whose second member is a type
error (a number where the `watches` object is expected). -/
def wPartial : Json :=
  Json.obj [("summary", Json.str "ok"), ("watches", Json.num 5)]

/-- A wire object carrying only recognized known-field keys. -/
def wKnownOnly : Json := Json.obj [("summary", Json.str "Bug")]

/-- Builder metadata covering the dispatch table. -/
def mitW : MetaIssueType :=
  { allFields := [("Components", "components"), ("Assignee", "assignee")]
    fields := [("components/schema/type", "array"), ("components/schema/items", "component"),
               ("assignee/schema/type", "user")] }

/-- Builder project metadata. -/
def mpW : MetaProject := { name := "Internal", id := "10000" }

/-- Builder metadata where a display name resolves but the resolved key has no
declared schema type. -/
def mitBad : MetaIssueType := { allFields := [("F", "f")], fields := [] }

/-- A decoded issue response for `GetCustomFields`. -/
def issueW : List (String × Json) :=
  [("fields", Json.obj [("customfield_100", Json.obj [("value", Json.str "High")]),
                        ("summary", Json.str "x")])]

/-- A payload whose dynamic store collides with a known key and carries a
dynamic entry. -/
def iMerge : IssueFields :=
  { IssueFields.init with
    unknowns := some [("summary", MVal.js (Json.str "X")),
                      ("customfield_9", MVal.js (Json.str "y"))] }

end GoJira

namespace GoJira

/-! ## Lemma kit: association-list map algebra -/

theorem putAll_nil (init : MarshalMap) : putAll init [] = init := rfl

theorem putAll_cons (init : MarshalMap) (kv : String × MVal) (rest : MarshalMap) :
    putAll init (kv :: rest) = putAll (mput init kv.1 kv.2) rest := rfl

theorem mlookup_isSome_of_mem_keys (m : List (String × α)) (k : String)
    (h : k ∈ mkeys m) : (mlookup k m).isSome = true := by
  induction m with
  | nil => simp [mkeys] at h
  | cons kv rest ih =>
    obtain ⟨k0, v0⟩ := kv
    by_cases h0 : k0 = k
    · simp [mlookup, h0]
    · rw [mkeys_cons, List.mem_cons] at h
      rcases h with h | h
      · exact absurd h.symm h0
      · simpa [mlookup, h0] using ih h

theorem mem_mput (m : List (String × α)) (k : String) (v : α) (kv : String × α)
    (h : kv ∈ mput m k v) : kv ∈ m ∨ kv = (k, v) := by
  induction m with
  | nil =>
    right
    simpa [mput] using h
  | cons kv0 rest ih =>
    obtain ⟨k0, v0⟩ := kv0
    by_cases h0 : k0 = k
    · subst h0
      simp only [mput, if_pos rfl] at h
      rcases List.mem_cons.mp h with h1 | h1
      · right; exact h1
      · left; exact List.mem_cons_of_mem _ h1
    · simp only [mput, if_neg h0] at h
      rcases List.mem_cons.mp h with h1 | h1
      · left; exact h1 ▸ List.mem_cons_self _ _
      · rcases ih h1 with h2 | h2
        · left; exact List.mem_cons_of_mem _ h2
        · right; exact h2

theorem mkeys_mput (m : List (String × α)) (k : String) (v : α) :
    mkeys (mput m k v) = if k ∈ mkeys m then mkeys m else mkeys m ++ [k] := by
  induction m with
  | nil => simp [mput, mkeys]
  | cons kv rest ih =>
    obtain ⟨k0, v0⟩ := kv
    by_cases h0 : k0 = k
    · subst h0
      simp [mput, mkeys_cons]
    · by_cases hm : k ∈ mkeys rest
      · have hc : k ∈ k0 :: mkeys rest := List.mem_cons_of_mem _ hm
        simp only [mput, if_neg h0, mkeys_cons, ih, if_pos hm, if_pos hc]
      · have hc : k ∉ k0 :: mkeys rest := by
          rw [List.mem_cons]
          push_neg
          exact ⟨Ne.symm h0, hm⟩
        simp only [mput, if_neg h0, mkeys_cons, ih, if_neg hm, if_neg hc]
        exact (List.cons_append _ _ _).symm

theorem nodup_mkeys_mput (m : List (String × α)) (k : String) (v : α)
    (h : (mkeys m).Nodup) : (mkeys (mput m k v)).Nodup := by
  rw [mkeys_mput]
  by_cases hm : k ∈ mkeys m
  · simpa [hm] using h
  · rw [if_neg hm]
    rw [List.nodup_append]
    exact ⟨h, List.nodup_singleton k, by simpa [List.disjoint_singleton] using hm⟩

theorem mem_putAll (init l : MarshalMap) (kv : String × MVal)
    (h : kv ∈ putAll init l) : kv ∈ init ∨ kv ∈ l := by
  induction l generalizing init with
  | nil => left; exact h
  | cons kv0 rest ih =>
    rw [putAll_cons] at h
    rcases ih _ h with h1 | h1
    · rcases mem_mput _ _ _ _ h1 with h2 | h2
      · left; exact h2
      · right
        rw [h2]
        exact List.mem_cons_self _ _
    · right; exact List.mem_cons_of_mem _ h1

theorem nodup_mkeys_putAll (init l : MarshalMap) (h : (mkeys init).Nodup) :
    (mkeys (putAll init l)).Nodup := by
  induction l generalizing init with
  | nil => exact h
  | cons kv rest ih =>
    rw [putAll_cons]
    exact ih _ (nodup_mkeys_mput _ _ _ h)

theorem mlookup_putAll_not_mem (l init : MarshalMap) (k : String)
    (h : k ∉ mkeys l) : mlookup k (putAll init l) = mlookup k init := by
  induction l generalizing init with
  | nil => rfl
  | cons kv rest ih =>
    obtain ⟨k0, v0⟩ := kv
    rw [mkeys_cons, List.mem_cons] at h
    push_neg at h
    rw [putAll_cons, ih _ h.2]
    exact mlookup_mput_ne _ _ _ _ h.1

theorem mlookup_putAll_of_lookup (l init : MarshalMap) (k : String) (v : MVal)
    (hnd : (mkeys l).Nodup) (h : mlookup k l = some v) :
    mlookup k (putAll init l) = some v := by
  induction l generalizing init with
  | nil => simp [mlookup] at h
  | cons kv rest ih =>
    obtain ⟨k0, v0⟩ := kv
    rw [mkeys_cons, List.nodup_cons] at hnd
    by_cases h0 : k0 = k
    · subst h0
      rw [mlookup, if_pos rfl] at h
      rw [putAll_cons, mlookup_putAll_not_mem _ _ _ hnd.1]
      rw [mlookup_mput_self]
      exact h
    · rw [mlookup, if_neg h0] at h
      rw [putAll_cons]
      exact ih _ hnd.2 h

theorem mlookup_map_snd (m : List (String × α)) (f : α → β) (k : String) :
    mlookup k (m.map (fun kv => (kv.1, f kv.2))) = (mlookup k m).map f := by
  induction m with
  | nil => rfl
  | cons kv rest ih =>
    obtain ⟨k0, v0⟩ := kv
    by_cases h0 : k0 = k <;> simp [mlookup, h0, ih]

theorem mkeys_map_snd (m : List (String × α)) (f : α → β) :
    mkeys (m.map (fun kv => (kv.1, f kv.2))) = mkeys m := by
  induction m with
  | nil => rfl
  | cons kv rest ih => simp [mkeys, ih]

theorem mem_of_mlookup_eq_some (m : List (String × α)) (k : String) (v : α)
    (h : mlookup k m = some v) : (k, v) ∈ m := by
  induction m with
  | nil => simp [mlookup] at h
  | cons kv rest ih =>
    obtain ⟨k0, v0⟩ := kv
    by_cases h0 : k0 = k
    · subst h0
      rw [mlookup, if_pos rfl] at h
      rw [Option.some.injEq] at h
      rw [← h]
      exact List.mem_cons_self _ _
    · rw [mlookup, if_neg h0] at h
      exact List.mem_cons_of_mem _ (ih h)

theorem mlookup_gmap_none (kvs : List (String × Json)) (k : String)
    (h : k ∉ mkeys kvs) : mlookup k (gmap kvs) = none := by
  unfold gmap
  rw [mlookup_putAll_not_mem _ _ _ (by rwa [mkeys_map_snd])]
  rfl

theorem mlookup_gmap (kvs : List (String × Json)) (k : String)
    (hnd : (mkeys kvs).Nodup) :
    mlookup k (gmap kvs) = (mlookup k kvs).map MVal.js := by
  unfold gmap
  cases h : mlookup k kvs with
  | none =>
    have hnm : k ∉ mkeys kvs := by
      intro hm
      have hs := mlookup_isSome_of_mem_keys kvs k hm
      rw [h] at hs
      exact Bool.noConfusion hs
    rw [mlookup_putAll_not_mem _ _ _ (by rwa [mkeys_map_snd])]
    rfl
  | some v =>
    have hl : mlookup k (kvs.map (fun kv => (kv.1, MVal.js kv.2))) = some (MVal.js v) := by
      rw [mlookup_map_snd, h]
      rfl
    exact mlookup_putAll_of_lookup _ _ _ _ (by rwa [mkeys_map_snd]) hl

end GoJira

namespace GoJira

/-! ## Lemma kit: the tag-deletion loop and the structs map -/

theorem mem_mdel (m : List (String × α)) (k : String) (kv : String × α)
    (h : kv ∈ mdel k m) : kv ∈ m ∧ kv.1 ≠ k := by
  induction m with
  | nil => cases h
  | cons kv0 rest ih =>
    obtain ⟨k0, v0⟩ := kv0
    by_cases h0 : k0 = k
    · simp only [mdel, if_pos h0] at h
      rcases ih h with ⟨hm, hk⟩
      exact ⟨List.mem_cons_of_mem _ hm, hk⟩
    · simp only [mdel, if_neg h0] at h
      rcases List.mem_cons.mp h with h1 | h1
      · subst h1
        exact ⟨List.mem_cons_self _ _, h0⟩
      · rcases ih h1 with ⟨hm, hk⟩
        exact ⟨List.mem_cons_of_mem _ hm, hk⟩

theorem mdel_sublist (k : String) (m : List (String × α)) : List.Sublist (mdel k m) m := by
  induction m with
  | nil => exact List.Sublist.refl _
  | cons kv rest ih =>
    obtain ⟨k0, v0⟩ := kv
    by_cases h0 : k0 = k
    · simp only [mdel, if_pos h0]
      exact ih.cons _
    · simp only [mdel, if_neg h0]
      exact ih.cons₂ _

theorem eraseTagged_sublist (tags : List (String × String)) (m : MarshalMap) :
    List.Sublist (eraseTagged tags m) m := by
  induction tags generalizing m with
  | nil => exact List.Sublist.refl _
  | cons t rest ih =>
    obtain ⟨name, tag⟩ := t
    by_cases ht : tag = ""
    · simp only [eraseTagged, if_pos ht]
      exact ih m
    · cases hs : splitComma tag with
      | nil =>
        simp only [eraseTagged, if_neg ht, hs]
        exact ih m
      | cons k0 ks =>
        simp only [eraseTagged, if_neg ht, hs]
        exact (ih (mdel k0 m)).trans (mdel_sublist k0 m)

theorem mlookup_eraseTagged_not_mem (tags : List (String × String)) (m : MarshalMap) (k : String)
    (h : k ∉ taggedKeys tags) : mlookup k (eraseTagged tags m) = mlookup k m := by
  induction tags generalizing m with
  | nil => rfl
  | cons t rest ih =>
    obtain ⟨name, tag⟩ := t
    by_cases ht : tag = ""
    · simp only [taggedKeys, if_pos ht] at h
      simp only [eraseTagged, if_pos ht]
      exact ih m h
    · cases hs : splitComma tag with
      | nil =>
        simp only [taggedKeys, if_neg ht, hs] at h
        simp only [eraseTagged, if_neg ht, hs]
        exact ih m h
      | cons k0 ks =>
        simp only [taggedKeys, if_neg ht, hs, List.mem_cons] at h
        push_neg at h
        simp only [eraseTagged, if_neg ht, hs]
        rw [ih (mdel k0 m) h.2]
        exact mlookup_mdel_ne _ _ _ h.1

theorem mlookup_eraseTagged_mem (tags : List (String × String)) (m : MarshalMap) (k : String)
    (h : k ∈ taggedKeys tags) : mlookup k (eraseTagged tags m) = none := by
  induction tags generalizing m with
  | nil => simp [taggedKeys] at h
  | cons t rest ih =>
    obtain ⟨name, tag⟩ := t
    by_cases ht : tag = ""
    · simp only [taggedKeys, if_pos ht] at h
      simp only [eraseTagged, if_pos ht]
      exact ih m h
    · cases hs : splitComma tag with
      | nil =>
        simp only [taggedKeys, if_neg ht, hs] at h
        simp only [eraseTagged, if_neg ht, hs]
        exact ih m h
      | cons k0 ks =>
        simp only [taggedKeys, if_neg ht, hs] at h
        simp only [eraseTagged, if_neg ht, hs]
        by_cases hk : k ∈ taggedKeys rest
        · exact ih (mdel k0 m) hk
        · have hk0 : k = k0 := by
            rcases List.mem_cons.mp h with h1 | h1
            · exact h1
            · exact absurd h1 hk
          rw [mlookup_eraseTagged_not_mem rest (mdel k0 m) k hk, hk0]
          exact mlookup_mdel_self _ _

theorem mem_eraseTagged (tags : List (String × String)) (m : MarshalMap) (kv : String × MVal)
    (h : kv ∈ eraseTagged tags m) : kv ∈ m ∧ kv.1 ∉ taggedKeys tags := by
  induction tags generalizing m with
  | nil => exact ⟨h, by simp [taggedKeys]⟩
  | cons t rest ih =>
    obtain ⟨name, tag⟩ := t
    by_cases ht : tag = ""
    · simp only [eraseTagged, if_pos ht] at h
      rcases ih m h with ⟨hm, hk⟩
      simp only [taggedKeys, if_pos ht]
      exact ⟨hm, hk⟩
    · cases hs : splitComma tag with
      | nil =>
        simp only [eraseTagged, if_neg ht, hs] at h
        rcases ih m h with ⟨hm, hk⟩
        simp only [taggedKeys, if_neg ht, hs]
        exact ⟨hm, hk⟩
      | cons k0 ks =>
        simp only [eraseTagged, if_neg ht, hs] at h
        rcases ih (mdel k0 m) h with ⟨hm, hk⟩
        rcases mem_mdel m k0 kv hm with ⟨hm2, hne⟩
        simp only [taggedKeys, if_neg ht, hs, List.mem_cons]
        push_neg
        exact ⟨hm2, hne, hk⟩

theorem eraseTagged_eq_nil (tags : List (String × String)) (m : MarshalMap)
    (h : ∀ kv ∈ m, kv.1 ∈ taggedKeys tags) : eraseTagged tags m = [] := by
  rw [List.eq_nil_iff_forall_not_mem]
  intro kv hkv
  rcases mem_eraseTagged tags m kv hkv with ⟨hm, hnot⟩
  exact hnot (h kv hm)

theorem mem_gmap (kvs : List (String × Json)) (kv : String × MVal)
    (h : kv ∈ gmap kvs) : kv.1 ∈ mkeys kvs ∧ ∃ j, kv.2 = MVal.js j := by
  rcases mem_putAll _ _ _ h with h1 | h1
  · cases h1
  · rcases List.mem_map.mp h1 with ⟨a, ha, heq⟩
    subst heq
    exact ⟨List.mem_map.mpr ⟨a, ha, rfl⟩, a.2, rfl⟩

theorem nodup_mkeys_gmap (kvs : List (String × Json)) : (mkeys (gmap kvs)).Nodup :=
  nodup_mkeys_putAll _ _ List.nodup_nil

theorem gu_shape (d : Json) (t : MarshalMap) (h : genericUnmarshal d = some (some t)) :
    (mkeys t).Nodup ∧ ∀ kv ∈ t, ∃ j, kv.2 = MVal.js j := by
  cases d with
  | null => simp [genericUnmarshal] at h
  | obj kvs =>
    have : t = gmap kvs := by
      simpa [genericUnmarshal] using h.symm
    subst this
    exact ⟨nodup_mkeys_gmap kvs, fun kv hkv => (mem_gmap kvs kv hkv).2⟩
  | jbool b => simp [genericUnmarshal] at h
  | num n => simp [genericUnmarshal] at h
  | str s => simp [genericUnmarshal] at h
  | arr xs => simp [genericUnmarshal] at h

theorem baseRows_keys_sublist (l : List FieldDesc) (i : IssueFields) :
    List.Sublist (mkeys (baseRows l i)) (l.map FieldDesc.skey) := by
  induction l with
  | nil => exact List.Sublist.refl _
  | cons fd rest ih =>
    cases hb : fd.omitEmpty && fd.zeroAt i with
    | true =>
      simp only [baseRows, hb, if_true]
      exact ih.cons _
    | false =>
      simp only [baseRows, hb, Bool.false_eq_true, if_false, mkeys_cons, List.map_cons]
      exact ih.cons₂ _

theorem mlookup_baseRows_omit (l : List FieldDesc) (i : IssueFields) (fd : FieldDesc)
    (hnd : (l.map FieldDesc.skey).Nodup) (hfd : fd ∈ l)
    (ho : fd.omitEmpty = true) (hz : fd.zeroAt i = true) :
    mlookup fd.skey (baseRows l i) = none := by
  induction l with
  | nil => cases hfd
  | cons fd0 rest ih =>
    rw [List.map_cons, List.nodup_cons] at hnd
    rcases List.mem_cons.mp hfd with h1 | h1
    · subst h1
      have hcond : (fd.omitEmpty && fd.zeroAt i) = true := by
        rw [ho, hz]
        rfl
      simp only [baseRows, hcond, if_true]
      apply mlookup_eq_none_of_not_mem_keys
      intro hmem
      exact hnd.1 ((baseRows_keys_sublist rest i).subset hmem)
    · cases hb : fd0.omitEmpty && fd0.zeroAt i with
      | true =>
        simp only [baseRows, hb, if_true]
        exact ih hnd.2 h1
      | false =>
        simp only [baseRows, hb, Bool.false_eq_true, if_false]
        have hne : fd0.skey ≠ fd.skey := by
          intro he
          exact hnd.1 (he ▸ List.mem_map.mpr ⟨fd, h1, rfl⟩)
        rw [mlookup, if_neg hne]
        exact ih hnd.2 h1

theorem descKeys_nodup : (issueFieldDescs.map FieldDesc.skey).Nodup := by decide

theorem descKeys_sub_known : ∀ fd ∈ issueFieldDescs, fd.skey ∈ knownJsonKeys := by decide

theorem unknowns_not_known : "Unknowns" ∉ knownJsonKeys := by decide

theorem unmarshal_ok_inv (i i' : IssueFields) (d : Json)
    (h : IssueFields.UnmarshalJSON i d = (i', true)) :
    ∃ tm, genericUnmarshal d = some tm ∧ (typedDecode i d).2 = true ∧
      i' = { (typedDecode i d).1 with unknowns := tm.map eraseKnown } := by
  rcases htd : typedDecode i d with ⟨i1, ok⟩
  cases ok with
  | false => simp [IssueFields.UnmarshalJSON, htd] at h
  | true =>
    rcases hg : genericUnmarshal d with _ | tm
    · simp [IssueFields.UnmarshalJSON, htd, hg] at h
    · simp only [IssueFields.UnmarshalJSON, htd, hg, Prod.mk.injEq, and_true] at h
      exact ⟨tm, rfl, rfl, h.symm⟩

end GoJira

namespace GoJira

/-! ## Derived facts about a successful split -/

theorem split_store_eq (i i' : IssueFields) (d : Json)
    (h : IssueFields.UnmarshalJSON i d = (i', true)) :
    ∃ tm, genericUnmarshal d = some tm ∧ i'.unknowns = tm.map eraseKnown := by
  rcases unmarshal_ok_inv i i' d h with ⟨tm, hg, _, hi⟩
  subst hi
  exact ⟨tm, hg, rfl⟩

theorem nodup_mkeys_eraseKnown (tm : MarshalMap) (h : (mkeys tm).Nodup) :
    (mkeys (eraseKnown tm)).Nodup :=
  h.sublist ((eraseTagged_sublist issueFieldsTags tm).map Prod.fst)

theorem split_store_known_none (tm : MarshalMap) (k : String) (hk : k ∈ knownJsonKeys) :
    mlookup k (eraseKnown tm) = none :=
  mlookup_eraseTagged_mem issueFieldsTags tm k hk

theorem split_store_props (i i' : IssueFields) (d : Json)
    (h : IssueFields.UnmarshalJSON i d = (i', true)) :
    (mkeys (i'.unknowns.getD [])).Nodup ∧
    (∀ kv ∈ i'.unknowns.getD [], ∃ j, kv.2 = MVal.js j) ∧
    ∀ k ∈ knownJsonKeys, mlookup k (i'.unknowns.getD []) = none := by
  rcases split_store_eq i i' d h with ⟨tm, hg, hu⟩
  cases tm with
  | none =>
    rw [hu]
    exact ⟨List.nodup_nil, fun kv hkv => absurd hkv (List.not_mem_nil kv), fun k _ => rfl⟩
  | some t =>
    rw [hu]
    simp only [Option.map_some', Option.getD_some]
    obtain ⟨hnd, hjs⟩ := gu_shape d t hg
    refine ⟨?_, ?_, ?_⟩
    · exact nodup_mkeys_eraseKnown t hnd
    · intro kv hkv
      exact hjs kv (mem_eraseTagged issueFieldsTags t kv hkv).1
    · intro k hk
      exact split_store_known_none t k hk

theorem structsBase_none_of_not_known (i : IssueFields) (k : String)
    (hk : k ∉ knownJsonKeys) : mlookup k (structsBase i) = none := by
  apply mlookup_eq_none_of_not_mem_keys
  intro hmem
  have hsub := (baseRows_keys_sublist issueFieldDescs i).subset hmem
  rcases List.mem_map.mp hsub with ⟨fd, hfd, heq⟩
  exact hk (heq ▸ descKeys_sub_known fd hfd)

theorem nodup_mkeys_mergedPairs (i : IssueFields) : (mkeys (mergedPairs i)).Nodup := by
  have hbase : (mkeys (structsBase i)).Nodup :=
    descKeys_nodup.sublist (baseRows_keys_sublist issueFieldDescs i)
  have hput : (mkeys (putAll (structsBase i) (i.unknowns.getD []))).Nodup :=
    nodup_mkeys_putAll _ _ hbase
  exact hput.sublist ((mdel_sublist "Unknowns" _).map Prod.fst)

/-- C2: after every successful split, no key present in the dynamic store is
also a recognized known-field external key (the first comma-separated
component of a non-empty `json` tag of IssueFields). -/
theorem C2_disjointness (i i' : IssueFields) (d : Json)
    (h : IssueFields.UnmarshalJSON i d = (i', true)) :
    ∀ k ∈ knownJsonKeys, ∀ m, i'.unknowns = some m → mlookup k m = none := by
  intro k hk m hm
  rcases split_store_eq i i' d h with ⟨tm, _, hu⟩
  cases tm with
  | none =>
    rw [hu] at hm
    simp at hm
  | some t =>
    rw [hu] at hm
    simp only [Option.map_some', Option.some.injEq] at hm
    rw [← hm]
    exact split_store_known_none t k hk

/-- Witness for C2 at the wire object `{"summary":"Bug","customfield_777":"x"}`. -/
theorem C2_witness :
    mlookup "summary"
      ((IssueFields.UnmarshalJSON IssueFields.init wRound).1.unknowns.getD []) = none :=
  C2_disjointness IssueFields.init ((IssueFields.UnmarshalJSON IssueFields.init wRound).1)
    wRound rfl "summary" (by decide)
    ((IssueFields.UnmarshalJSON IssueFields.init wRound).1.unknowns.getD []) rfl

/-- C10 counterexample: splitting the wire document `null` succeeds, yet the
dynamic store ends up nil (`none`), not assigned: json.Unmarshal of JSON null
into a map stores the zero value nil into the map variable, so the claimed
"always assigned and non-nil" fails at this covered input. -/
theorem C10_counterexample :
    (IssueFields.UnmarshalJSON IssueFields.init Json.null).2 = true ∧
    (IssueFields.UnmarshalJSON IssueFields.init Json.null).1.unknowns = none ∧
    (IssueFields.UnmarshalJSON IssueFields.init Json.null).1.unknowns.isSome = false :=
  ⟨rfl, rfl, rfl⟩

/-- C10 (amended): after a successful split of a wire OBJECT the dynamic store
is assigned (non-nil) — only the wire document `null` leaves it nil — and it
is the empty map when every wire key is a recognized known-field key. -/
theorem C10_store_assigned_amended (i i' : IssueFields) (kvs : List (String × Json))
    (h : IssueFields.UnmarshalJSON i (Json.obj kvs) = (i', true)) :
    i'.unknowns.isSome = true ∧
    ((∀ k ∈ mkeys kvs, k ∈ knownJsonKeys) → i'.unknowns = some []) := by
  rcases split_store_eq i i' _ h with ⟨tm, hg, hu⟩
  have htm : tm = some (gmap kvs) :=
    (Option.some.inj
      ((rfl : genericUnmarshal (Json.obj kvs) = some (some (gmap kvs))).symm.trans hg)).symm
  subst htm
  constructor
  · rw [hu]
    rfl
  · intro hall
    rw [hu]
    simp only [Option.map_some', Option.some.injEq]
    exact eraseTagged_eq_nil issueFieldsTags (gmap kvs)
      (fun kv hkv => hall kv.1 (mem_gmap kvs kv hkv).1)

/-- Witness for the amended C10 at the wire object `{"summary":"Bug"}`. -/
theorem C10_witness :
    (IssueFields.UnmarshalJSON IssueFields.init wKnownOnly).1.unknowns.isSome = true ∧
    (IssueFields.UnmarshalJSON IssueFields.init wKnownOnly).1.unknowns = some [] := by
  have h := C10_store_assigned_amended IssueFields.init
    (IssueFields.UnmarshalJSON IssueFields.init wKnownOnly).1
    [("summary", Json.str "Bug")] rfl
  exact ⟨h.1, h.2 (by decide)⟩

/-- C6: the one struct field with an empty `json` tag (`Unknowns`) is skipped
silently by the tag loop — it contributes no recognized key — so a wire key
outside the recognized set (in particular the literal key `Unknowns`)
survives the split into the dynamic store with its decoded value. -/
theorem C6_emptyTag_skipped (i i' : IssueFields) (kvs : List (String × Json)) (k : String)
    (v : MVal) (h : IssueFields.UnmarshalJSON i (Json.obj kvs) = (i', true))
    (hk : k ∉ knownJsonKeys) (hv : mlookup k (gmap kvs) = some v) :
    ("Unknowns", "") ∈ issueFieldsTags ∧ "Unknowns" ∉ knownJsonKeys ∧
    ∃ m, i'.unknowns = some m ∧ mlookup k m = some v := by
  refine ⟨by decide, unknowns_not_known, ?_⟩
  rcases split_store_eq _ _ _ h with ⟨tm, hg, hu⟩
  have htm : tm = some (gmap kvs) :=
    (Option.some.inj
      ((rfl : genericUnmarshal (Json.obj kvs) = some (some (gmap kvs))).symm.trans hg)).symm
  subst htm
  refine ⟨eraseKnown (gmap kvs), hu, ?_⟩
  simp only [eraseKnown]
  rw [mlookup_eraseTagged_not_mem _ _ _ hk]
  exact hv

/-- Witness for C6 at the wire object `{"Unknowns":{"a":1}}`. -/
theorem C6_witness :
    ∃ m, (IssueFields.UnmarshalJSON IssueFields.init wUnknowns).1.unknowns = some m ∧
      mlookup "Unknowns" m = some (MVal.js (Json.obj [("a", Json.num 1)])) :=
  (C6_emptyTag_skipped IssueFields.init _ [("Unknowns", Json.obj [("a", Json.num 1)])]
    "Unknowns" _ rfl (by decide) rfl).2.2

/-- C4: flattening merges every dynamic-store entry into the same flat object
under its own key — overwriting a known field's entry on a key collision,
without failing — the literal internal key `Unknowns` never appears in the
output, and the output is a single flat JSON object. -/
theorem C4_flatten_merge (i : IssueFields) (m : MarshalMap)
    (hm : i.unknowns = some m) (hnd : (mkeys m).Nodup) :
    (∀ k v, mlookup k m = some v → k ≠ "Unknowns" →
      mlookup k ((mergedPairs i).map (fun kv => (kv.1, kv.2.toJson))) = some v.toJson) ∧
    mlookup "Unknowns" (mergedPairs i) = none ∧
    IssueFields.MarshalJSON i = Json.obj ((mergedPairs i).map (fun kv => (kv.1, kv.2.toJson))) := by
  refine ⟨?_, mlookup_mdel_self _ _, rfl⟩
  intro k v hv hku
  rw [mlookup_map_snd]
  simp only [mergedPairs]
  rw [mlookup_mdel_ne _ _ _ hku, hm, Option.getD_some]
  rw [mlookup_putAll_of_lookup _ _ _ _ hnd hv]
  rfl

/-- Witness for C4: a store entry colliding with the known `summary` key wins
in the flattened output. -/
theorem C4_witness :
    mlookup "summary" ((mergedPairs iMerge).map (fun kv => (kv.1, kv.2.toJson))) =
      some ((MVal.js (Json.str "X")).toJson) :=
  (C4_flatten_merge iMerge _ rfl (by decide)).1 "summary" (MVal.js (Json.str "X")) rfl
    (by decide)

/-- C5 (amended): the split fails exactly when the structured decode or the
generic decode of the same raw data fails; on success both decodes succeeded
and the dynamic store is assigned the stripped generic map (nil when the
generic decode produced JSON null). (On failure, members decoded before the
failing one remain assigned — see the counterexample — so failure does not
leave the payload unchanged.) -/
theorem C5_failure_amended (i : IssueFields) (d : Json) :
    ((IssueFields.UnmarshalJSON i d).2 = false ↔
      ((typedDecode i d).2 = false ∨ genericUnmarshal d = none)) ∧
    ((IssueFields.UnmarshalJSON i d).2 = true →
      ∃ tm, genericUnmarshal d = some tm ∧ (typedDecode i d).2 = true ∧
        (IssueFields.UnmarshalJSON i d).1.unknowns = tm.map eraseKnown) := by
  rcases htd : typedDecode i d with ⟨i1, ok⟩
  cases ok with
  | false =>
    constructor
    · simp [IssueFields.UnmarshalJSON, htd]
    · intro h
      simp [IssueFields.UnmarshalJSON, htd] at h
  | true =>
    rcases hg : genericUnmarshal d with _ | tm
    · constructor
      · simp [IssueFields.UnmarshalJSON, htd, hg]
      · intro h
        simp [IssueFields.UnmarshalJSON, htd, hg] at h
    · constructor
      · simp [IssueFields.UnmarshalJSON, htd, hg]
      · intro _
        exact ⟨tm, rfl, rfl, by simp [IssueFields.UnmarshalJSON, htd, hg]⟩

/-- Witness for C5 at the non-object wire value `3`, where both decodes fail. -/
theorem C5_witness :
    (IssueFields.UnmarshalJSON IssueFields.init (Json.num 3)).2 = false :=
  (C5_failure_amended IssueFields.init (Json.num 3)).1.mpr (Or.inl rfl)

/-- Counterexample for C5 as stated: on the wire object
`{"summary":"ok","watches":5}` the split fails (the `watches` member is a type
error), yet the receiver is not left unchanged — its `summary` field has
already been assigned. -/
theorem C5_counterexample :
    (IssueFields.UnmarshalJSON IssueFields.init wPartial).2 = false ∧
    (IssueFields.UnmarshalJSON IssueFields.init wPartial).1.summary = "ok" ∧
    IssueFields.init.summary = "" :=
  ⟨rfl, rfl, rfl⟩

end GoJira

namespace GoJira

/-- C1 (amended): for any wire object whose split succeeds, if re-splitting
the flattened payload also succeeds then the re-split dynamic store agrees
with the original store at every key other than the literal `Unknowns`, and
never contains `Unknowns` itself — a dynamic entry under that key is deleted
by the flatten (see the counterexample). -/
theorem C1_roundtrip_amended (i j i1 i2 : IssueFields) (w : Json)
    (h1 : IssueFields.UnmarshalJSON i w = (i1, true))
    (h2 : IssueFields.UnmarshalJSON j (IssueFields.MarshalJSON i1) = (i2, true)) :
    (∀ k, k ≠ "Unknowns" →
      mlookup k (i2.unknowns.getD []) = mlookup k (i1.unknowns.getD [])) ∧
    mlookup "Unknowns" (i2.unknowns.getD []) = none := by
  obtain ⟨hnd1, hjs1, hkn1⟩ := split_store_props i i1 w h1
  rcases split_store_eq j i2 _ h2 with ⟨tm2, hg2, hu2⟩
  have hgm : genericUnmarshal (IssueFields.MarshalJSON i1) =
      some (some (gmap ((mergedPairs i1).map (fun kv => (kv.1, kv.2.toJson))))) := rfl
  have htm2 : tm2 = some (gmap ((mergedPairs i1).map (fun kv => (kv.1, kv.2.toJson)))) :=
    (Option.some.inj (hgm.symm.trans hg2)).symm
  subst htm2
  rw [hu2]
  simp only [Option.map_some', Option.getD_some]
  have hPnd : (mkeys ((mergedPairs i1).map (fun kv => (kv.1, kv.2.toJson)))).Nodup := by
    rw [mkeys_map_snd]
    exact nodup_mkeys_mergedPairs i1
  constructor
  · intro k hk
    simp only [eraseKnown]
    by_cases hkn : k ∈ knownJsonKeys
    · rw [mlookup_eraseTagged_mem _ _ _ hkn]
      exact (hkn1 k hkn).symm
    · rw [mlookup_eraseTagged_not_mem _ _ _ hkn]
      rw [mlookup_gmap _ _ hPnd, mlookup_map_snd]
      simp only [mergedPairs]
      rw [mlookup_mdel_ne _ _ _ hk]
      cases hv : mlookup k (i1.unknowns.getD []) with
      | some v =>
        rw [mlookup_putAll_of_lookup _ _ _ _ hnd1 hv]
        have hvm : (k, v) ∈ i1.unknowns.getD [] := mem_of_mlookup_eq_some _ _ _ hv
        obtain ⟨jv, hjv⟩ := hjs1 (k, v) hvm
        dsimp only at hjv
        subst hjv
        rfl
      | none =>
        have hks : k ∉ mkeys (i1.unknowns.getD []) := by
          intro hm
          have hs := mlookup_isSome_of_mem_keys _ _ hm
          rw [hv] at hs
          exact Bool.noConfusion hs
        rw [mlookup_putAll_not_mem _ _ _ hks, structsBase_none_of_not_known i1 k hkn]
        rfl
  · simp only [eraseKnown]
    rw [mlookup_eraseTagged_not_mem _ _ _ unknowns_not_known]
    apply mlookup_gmap_none
    rw [mkeys_map_snd]
    intro hm
    have hs := mlookup_isSome_of_mem_keys _ _ hm
    rw [show mlookup "Unknowns" (mergedPairs i1) = none from mlookup_mdel_self _ _] at hs
    exact Bool.noConfusion hs

/-- Counterexample for C1 as stated: the wire object `{"Unknowns":{"a":1}}`
splits successfully with a dynamic entry under the key `Unknowns`, but the
flatten/re-split cycle loses that entry (MarshalJSON deletes the `Unknowns`
key after the merge), so the round trip is not exact for every wire object. -/
theorem C1_counterexample :
    (IssueFields.UnmarshalJSON IssueFields.init wUnknowns).2 = true ∧
    mlookup "Unknowns"
      ((IssueFields.UnmarshalJSON IssueFields.init wUnknowns).1.unknowns.getD []) =
      some (MVal.js (Json.obj [("a", Json.num 1)])) ∧
    (IssueFields.UnmarshalJSON IssueFields.init
      (IssueFields.MarshalJSON (IssueFields.UnmarshalJSON IssueFields.init wUnknowns).1)).2 =
      true ∧
    mlookup "Unknowns"
      ((IssueFields.UnmarshalJSON IssueFields.init
        (IssueFields.MarshalJSON
          (IssueFields.UnmarshalJSON IssueFields.init wUnknowns).1)).1.unknowns.getD []) =
      none :=
  ⟨rfl, rfl, rfl, rfl⟩

/-- Witness for C1 at `{"summary":"Bug","customfield_777":"x"}`: the dynamic
key `customfield_777` survives the flatten/re-split cycle with its value. -/
theorem C1_witness :
    mlookup "customfield_777"
      ((IssueFields.UnmarshalJSON IssueFields.init
        (IssueFields.MarshalJSON
          (IssueFields.UnmarshalJSON IssueFields.init wRound).1)).1.unknowns.getD []) =
    mlookup "customfield_777"
      ((IssueFields.UnmarshalJSON IssueFields.init wRound).1.unknowns.getD []) :=
  (C1_roundtrip_amended IssueFields.init IssueFields.init
    (IssueFields.UnmarshalJSON IssueFields.init wRound).1
    (IssueFields.UnmarshalJSON IssueFields.init
      (IssueFields.MarshalJSON (IssueFields.UnmarshalJSON IssueFields.init wRound).1)).1
    wRound rfl rfl).1 "customfield_777" (by decide)

/-- C3 (amended): a known field whose structs tag carries `omitempty` and
whose value is the Go zero never appears in the flattened output unless its
key is in the dynamic store; the `issuetype` and `summary` tags carry no
`omitempty`, so those two keys always appear. In the concrete scenario,
splitting `{"summary":"Bug","customfield_10218":"because"}` sets Summary and
the known Justification field (whose tag is `customfield_10218`), leaves the
dynamic store empty, and flattening yields exactly the keys `issuetype`,
`summary` and `customfield_10218`. -/
theorem C3_omitempty_amended :
    (∀ i : IssueFields, ∀ fd ∈ issueFieldDescs, fd.omitEmpty = true → fd.zeroAt i = true →
      mlookup fd.skey (i.unknowns.getD []) = none →
      mlookup fd.skey (mergedPairs i) = none) ∧
    (IssueFields.UnmarshalJSON IssueFields.init wScenario).2 = true ∧
    (IssueFields.UnmarshalJSON IssueFields.init wScenario).1.summary = "Bug" ∧
    (IssueFields.UnmarshalJSON IssueFields.init wScenario).1.justification = "because" ∧
    (IssueFields.UnmarshalJSON IssueFields.init wScenario).1.unknowns = some [] ∧
    IssueFields.MarshalJSON (IssueFields.UnmarshalJSON IssueFields.init wScenario).1 =
      Json.obj [("issuetype", Json.obj []), ("summary", Json.str "Bug"),
                ("customfield_10218", Json.str "because")] := by
  refine ⟨?_, rfl, rfl, rfl, rfl, rfl⟩
  intro i fd hfd ho hz hstore
  have hbase : mlookup fd.skey (structsBase i) = none :=
    mlookup_baseRows_omit issueFieldDescs i fd descKeys_nodup hfd ho hz
  have hks : fd.skey ∉ mkeys (i.unknowns.getD []) := by
    intro hm
    have hs := mlookup_isSome_of_mem_keys _ _ hm
    rw [hstore] at hs
    exact Bool.noConfusion hs
  simp only [mergedPairs]
  by_cases hu : fd.skey = "Unknowns"
  · rw [hu]
    exact mlookup_mdel_self _ _
  · rw [mlookup_mdel_ne _ _ _ hu, mlookup_putAll_not_mem _ _ _ hks]
    exact hbase

/-- Counterexample for C3 as stated: in the claim's own concrete case the
dynamic store does not contain `customfield_10218` (it is a recognized
known-field key, assigned to the typed Justification field), and the
flattened output contains the key `issuetype` beyond the claimed two keys. -/
theorem C3_counterexample :
    (IssueFields.UnmarshalJSON IssueFields.init wScenario).2 = true ∧
    mlookup "customfield_10218"
      ((IssueFields.UnmarshalJSON IssueFields.init wScenario).1.unknowns.getD []) = none ∧
    mlookup "issuetype"
      (mergedPairs (IssueFields.UnmarshalJSON IssueFields.init wScenario).1) =
      some (MVal.js (Json.obj [])) :=
  ⟨rfl, rfl, rfl⟩

/-- Witness for C3: the `project` row is tagged `omitempty`, so the zero
payload's flattened output has no `project` key. -/
theorem C3_witness :
    mlookup "project" (mergedPairs IssueFields.init) = none :=
  C3_omitempty_amended.1 IssueFields.init
    ⟨"project", true, fun i => MVal.js i.project.toJson,
      fun i => decide (i.project = Project.zero)⟩
    (List.Mem.tail _ (List.Mem.head _)) rfl rfl rfl

end GoJira

namespace GoJira

/-- C7: the coercion dispatch of the metadata-driven builder. With the display
name resolved to an internal key, each supported declared schema type deposits
the documented coerced value into the dynamic store of a fresh payload keyed
by the internal key: `array`/`component` a one-element component list named by
the value, `string`/`date`/`any` the raw string, `user` a user reference named
by the value, `priority` a priority reference, `issuetype` an issue-type
reference, and `project` a project reference built from the project metadata's
name and id, ignoring the supplied value. -/
theorem C7_builder_dispatch (mp : MetaProject) (mit : MetaIssueType) (name v jk : String)
    (hres : mlookup name mit.allFields = some jk) :
    (mit.fieldsString (jk ++ "/schema/type") = some "array" →
      mit.fieldsString (jk ++ "/schema/items") = some "component" →
      InitIssueWithMetaAndFields mp mit [(name, v)] =
        Except.ok { Issue.zero with fields := some { IssueFields.init with
          unknowns := some [(jk, MVal.comps [{ Component.zero with name := v }])] } }) ∧
    (mit.fieldsString (jk ++ "/schema/type") = some "string" →
      InitIssueWithMetaAndFields mp mit [(name, v)] =
        Except.ok { Issue.zero with fields := some { IssueFields.init with
          unknowns := some [(jk, MVal.strV v)] } }) ∧
    (mit.fieldsString (jk ++ "/schema/type") = some "date" →
      InitIssueWithMetaAndFields mp mit [(name, v)] =
        Except.ok { Issue.zero with fields := some { IssueFields.init with
          unknowns := some [(jk, MVal.strV v)] } }) ∧
    (mit.fieldsString (jk ++ "/schema/type") = some "any" →
      InitIssueWithMetaAndFields mp mit [(name, v)] =
        Except.ok { Issue.zero with fields := some { IssueFields.init with
          unknowns := some [(jk, MVal.strV v)] } }) ∧
    (mit.fieldsString (jk ++ "/schema/type") = some "user" →
      InitIssueWithMetaAndFields mp mit [(name, v)] =
        Except.ok { Issue.zero with fields := some { IssueFields.init with
          unknowns := some [(jk, MVal.usr { User.zero with name := v })] } }) ∧
    (mit.fieldsString (jk ++ "/schema/type") = some "priority" →
      InitIssueWithMetaAndFields mp mit [(name, v)] =
        Except.ok { Issue.zero with fields := some { IssueFields.init with
          unknowns := some [(jk, MVal.prio { Priority.zero with name := v })] } }) ∧
    (mit.fieldsString (jk ++ "/schema/type") = some "issuetype" →
      InitIssueWithMetaAndFields mp mit [(name, v)] =
        Except.ok { Issue.zero with fields := some { IssueFields.init with
          unknowns := some [(jk, MVal.itype { IssueType.zero with name := v })] } }) ∧
    (mit.fieldsString (jk ++ "/schema/type") = some "project" →
      InitIssueWithMetaAndFields mp mit [(name, v)] =
        Except.ok { Issue.zero with fields := some { IssueFields.init with
          unknowns := some [(jk, MVal.proj { name := mp.name, id := mp.id })] } }) := by
  refine ⟨fun h1 h2 => ?_, fun h1 => ?_, fun h1 => ?_, fun h1 => ?_, fun h1 => ?_,
    fun h1 => ?_, fun h1 => ?_, fun h1 => ?_⟩ <;>
    simp [InitIssueWithMetaAndFields, initLoop, entryCoerce, hres, mput, Except.map, *]

/-- Witness for C7: the `user` dispatch at concrete metadata. -/
theorem C7_witness :
    InitIssueWithMetaAndFields mpW mitW [("Assignee", "alice")] =
      Except.ok { Issue.zero with fields := some { IssueFields.init with
        unknowns := some [("assignee", MVal.usr { User.zero with name := "alice" })] } } :=
  (C7_builder_dispatch mpW mitW "Assignee" "alice" "assignee" rfl).2.2.2.2.1 rfl

/-! ## Lemma kit for the customfield extraction -/

theorem cfFold_not_mem_keys (kvs : List (String × Json)) (k : String) :
    ∀ cf, k ∉ mkeys kvs → mlookup k (kvs.foldl cfStep cf) = mlookup k cf := by
  induction kvs with
  | nil => intro cf _; rfl
  | cons kv rest ih =>
    intro cf hk
    rw [mkeys_cons, List.mem_cons] at hk
    push_neg at hk
    rw [List.foldl_cons, ih _ hk.2]
    unfold cfStep
    by_cases hc : strContains kv.1 "customfield" = true
    · rw [if_pos hc]
      exact mlookup_mput_ne _ _ _ _ hk.1
    · rw [if_neg hc]

theorem cfFold_not_contains (kvs : List (String × Json)) (k : String)
    (hk : strContains k "customfield" = false) :
    ∀ cf, mlookup k (kvs.foldl cfStep cf) = mlookup k cf := by
  induction kvs with
  | nil => intro cf; rfl
  | cons kv rest ih =>
    intro cf
    rw [List.foldl_cons, ih]
    unfold cfStep
    by_cases hc : strContains kv.1 "customfield" = true
    · rw [if_pos hc]
      apply mlookup_mput_ne
      intro he
      rw [he, hc] at hk
      exact Bool.noConfusion hk
    · rw [if_neg hc]

theorem cfFold_lookup (kvs : List (String × Json)) (k : String) (v : Json)
    (hnd : (mkeys kvs).Nodup) (hv : mlookup k kvs = some v)
    (hc : strContains k "customfield" = true) :
    ∀ cf, mlookup k (kvs.foldl cfStep cf) =
      some (jsonSprint (flattenCustomValue v)) := by
  induction kvs with
  | nil => simp [mlookup] at hv
  | cons kv rest ih =>
    intro cf
    obtain ⟨k0, v0⟩ := kv
    rw [mkeys_cons, List.nodup_cons] at hnd
    rw [List.foldl_cons]
    by_cases h0 : k0 = k
    · subst h0
      rw [mlookup, if_pos rfl, Option.some.injEq] at hv
      subst hv
      rw [cfFold_not_mem_keys rest _ _ hnd.1]
      unfold cfStep
      rw [if_pos hc]
      exact mlookup_mput_self _ _ _
    · rw [mlookup, if_neg h0] at hv
      exact ih hnd.2 hv _

/-- C9: `GetCustomFields` returns exactly the raw-fields keys containing the
substring "customfield", each mapped to the `fmt.Sprint` rendering of its
value after unwrapping a nested `value` member; keys without the substring or
absent from the raw fields never appear. -/
theorem C9_custom_fields (issue : List (String × Json)) (kvs : List (String × Json))
    (hf : mlookup "fields" issue = some (Json.obj kvs)) (hnd : (mkeys kvs).Nodup) :
    (∀ k v, mlookup k kvs = some v → strContains k "customfield" = true →
      mlookup k (GetCustomFields issue) = some (jsonSprint (flattenCustomValue v))) ∧
    (∀ k, strContains k "customfield" = false → mlookup k (GetCustomFields issue) = none) ∧
    (∀ k, k ∉ mkeys kvs → mlookup k (GetCustomFields issue) = none) := by
  have hG : GetCustomFields issue = kvs.foldl cfStep [] := by
    simp [GetCustomFields, hf]
  refine ⟨?_, ?_, ?_⟩
  · intro k v hv hc
    rw [hG]
    exact cfFold_lookup kvs k v hnd hv hc []
  · intro k hk
    rw [hG, cfFold_not_contains kvs k hk []]
    rfl
  · intro k hk
    rw [hG, cfFold_not_mem_keys kvs k [] hk]
    rfl

/-- Witness for C9 at the spec's concrete example. -/
theorem C9_witness :
    mlookup "customfield_100" (GetCustomFields issueW) = some "High" ∧
    mlookup "summary" (GetCustomFields issueW) = none ∧
    GetCustomFields issueW = [("customfield_100", "High")] :=
  ⟨(C9_custom_fields issueW
      [("customfield_100", Json.obj [("value", Json.str "High")]), ("summary", Json.str "x")]
      rfl (by decide)).1 "customfield_100" (Json.obj [("value", Json.str "High")]) rfl
      (by decide),
   (C9_custom_fields issueW
      [("customfield_100", Json.obj [("value", Json.str "High")]), ("summary", Json.str "x")]
      rfl (by decide)).2.1 "summary" (by decide),
   rfl⟩

end GoJira

namespace GoJira

/-! ## Lemma kit for the builder loop -/

theorem entryCoerce_isErr (mp : MetaProject) (mit : MetaIssueType) (kv : String × String) :
    isErr (entryCoerce mp mit kv) = entryFailsSpec mit kv := by
  cases hres : mlookup kv.1 mit.allFields with
  | none => simp [entryCoerce, entryFailsSpec, isErr, hres]
  | some jk =>
    cases hvt : mit.fieldsString (jk ++ "/schema/type") with
    | none => simp [entryCoerce, entryFailsSpec, isErr, hvt, hres]
    | some vt =>
      simp only [entryCoerce, entryFailsSpec, hres, hvt]
      split
      · cases hit : mit.fieldsString (jk ++ "/schema/items") with
        | none => simp [isErr, hit]
        | some et =>
          simp only [hit]
          split <;> rfl
      · rfl
      · rfl
      · rfl
      · rfl
      · rfl
      · rfl
      · rfl
      · rfl

theorem entryCoerce_ok_resolves (mp : MetaProject) (mit : MetaIssueType) (kv : String × String)
    (jk : String) (mv : MVal) (h : entryCoerce mp mit kv = Except.ok (jk, mv)) :
    mlookup kv.1 mit.allFields = some jk := by
  cases hres : mlookup kv.1 mit.allFields with
  | none => simp [entryCoerce, hres] at h
  | some jk' =>
    cases hvt : mit.fieldsString (jk' ++ "/schema/type") with
    | none => simp [entryCoerce, hres, hvt] at h
    | some vt =>
      simp only [entryCoerce, hres, hvt] at h
      split at h
      · cases hit : mit.fieldsString (jk' ++ "/schema/items") with
        | none => simp [hit] at h
        | some et =>
          simp only [hit] at h
          split at h <;>
            · simp only [Except.ok.injEq, Prod.mk.injEq] at h
              rw [h.1]
      all_goals first
        | (simp only [Except.ok.injEq, Prod.mk.injEq] at h
           rw [h.1])
        | simp at h

theorem entryCoerce_keyNotFound (mp : MetaProject) (mit : MetaIssueType) (kv : String × String)
    (k : String) (h : entryCoerce mp mit kv = Except.error (BuildErr.keyNotFound k)) :
    kv.1 = k ∧ mlookup k mit.allFields = none := by
  cases hres : mlookup kv.1 mit.allFields with
  | none =>
    simp only [entryCoerce, hres, Except.error.injEq, BuildErr.keyNotFound.injEq] at h
    subst h
    exact ⟨rfl, hres⟩
  | some jk =>
    cases hvt : mit.fieldsString (jk ++ "/schema/type") with
    | none => simp [entryCoerce, hres, hvt] at h
    | some vt =>
      simp only [entryCoerce, hres, hvt] at h
      split at h
      · cases hit : mit.fieldsString (jk ++ "/schema/items") with
        | none => simp [hit] at h
        | some et =>
          simp only [hit] at h
          split at h <;> simp at h
      all_goals simp at h

theorem entryCoerce_unsupported (mp : MetaProject) (mit : MetaIssueType) (kv : String × String)
    (t k : String) (h : entryCoerce mp mit kv = Except.error (BuildErr.unsupportedType t k)) :
    kv.1 = k ∧ ∃ jk, mlookup kv.1 mit.allFields = some jk ∧
      mit.fieldsString (jk ++ "/schema/type") = some t := by
  cases hres : mlookup kv.1 mit.allFields with
  | none => simp [entryCoerce, hres] at h
  | some jk =>
    cases hvt : mit.fieldsString (jk ++ "/schema/type") with
    | none => simp [entryCoerce, hres, hvt] at h
    | some vt =>
      simp only [entryCoerce, hres, hvt] at h
      split at h
      · cases hit : mit.fieldsString (jk ++ "/schema/items") with
        | none => simp [hit] at h
        | some et =>
          simp only [hit] at h
          split at h <;> simp at h
      · simp at h
      · simp at h
      · simp at h
      · simp at h
      · simp at h
      · simp at h
      · simp at h
      · rw [Except.error.injEq, BuildErr.unsupportedType.injEq] at h
        exact ⟨h.2, jk, rfl, h.1 ▸ hvt⟩

theorem initLoop_isErr (mp : MetaProject) (mit : MetaIssueType) (cfg : List (String × String)) :
    ∀ acc, isErr (initLoop mp mit cfg acc) = cfg.any (entryFailsSpec mit) := by
  induction cfg with
  | nil => intro acc; rfl
  | cons kv rest ih =>
    intro acc
    rw [List.any_cons, ← entryCoerce_isErr mp mit kv]
    cases hec : entryCoerce mp mit kv with
    | error e => simp [initLoop, hec, isErr]
    | ok p =>
      obtain ⟨jk, mv⟩ := p
      simp only [initLoop, hec]
      rw [ih]
      simp [isErr]

theorem initLoop_isSome_mono (mp : MetaProject) (mit : MetaIssueType)
    (cfg : List (String × String)) :
    ∀ acc m, initLoop mp mit cfg acc = Except.ok m →
      ∀ k, (mlookup k acc).isSome = true → (mlookup k m).isSome = true := by
  induction cfg with
  | nil =>
    intro acc m h k hk
    rw [show acc = m from Except.ok.inj h] at hk
    exact hk
  | cons kv rest ih =>
    intro acc m h k hk
    cases hec : entryCoerce mp mit kv with
    | error e => simp [initLoop, hec] at h
    | ok p =>
      obtain ⟨jk, mv⟩ := p
      simp only [initLoop, hec] at h
      apply ih _ _ h k
      by_cases hjk : k = jk
      · rw [hjk, mlookup_mput_self]
        rfl
      · rw [mlookup_mput_ne _ _ _ _ hjk]
        exact hk

theorem initLoop_deposits (mp : MetaProject) (mit : MetaIssueType)
    (cfg : List (String × String)) :
    ∀ acc m, initLoop mp mit cfg acc = Except.ok m →
      ∀ kv ∈ cfg, ∃ jk, mlookup kv.1 mit.allFields = some jk ∧
        (mlookup jk m).isSome = true := by
  induction cfg with
  | nil =>
    intro acc m _ kv hkv
    cases hkv
  | cons kv0 rest ih =>
    intro acc m h kv hkv
    cases hec : entryCoerce mp mit kv0 with
    | error e => simp [initLoop, hec] at h
    | ok p =>
      obtain ⟨jk0, mv0⟩ := p
      simp only [initLoop, hec] at h
      rcases List.mem_cons.mp hkv with h1 | h1
      · subst h1
        refine ⟨jk0, entryCoerce_ok_resolves mp mit kv jk0 mv0 hec, ?_⟩
        apply initLoop_isSome_mono mp mit rest _ _ h jk0
        rw [mlookup_mput_self]
        rfl
      · exact ih _ _ h kv h1

theorem initLoop_keyNotFound (mp : MetaProject) (mit : MetaIssueType)
    (cfg : List (String × String)) :
    ∀ acc k, initLoop mp mit cfg acc = Except.error (BuildErr.keyNotFound k) →
      k ∈ cfg.map Prod.fst ∧ mlookup k mit.allFields = none := by
  induction cfg with
  | nil => intro acc k h; simp [initLoop] at h
  | cons kv0 rest ih =>
    intro acc k h
    cases hec : entryCoerce mp mit kv0 with
    | error e =>
      simp only [initLoop, hec, Except.error.injEq] at h
      subst h
      rcases entryCoerce_keyNotFound mp mit kv0 k hec with ⟨h1, h2⟩
      exact ⟨by rw [List.map_cons]; exact h1 ▸ List.mem_cons_self _ _, h2⟩
    | ok p =>
      obtain ⟨jk0, mv0⟩ := p
      simp only [initLoop, hec] at h
      rcases ih _ _ h with ⟨h1, h2⟩
      exact ⟨by rw [List.map_cons]; exact List.mem_cons_of_mem _ h1, h2⟩

theorem initLoop_unsupported (mp : MetaProject) (mit : MetaIssueType)
    (cfg : List (String × String)) :
    ∀ acc t k, initLoop mp mit cfg acc = Except.error (BuildErr.unsupportedType t k) →
      k ∈ cfg.map Prod.fst ∧ ∃ jk, mlookup k mit.allFields = some jk ∧
        mit.fieldsString (jk ++ "/schema/type") = some t := by
  induction cfg with
  | nil => intro acc t k h; simp [initLoop] at h
  | cons kv0 rest ih =>
    intro acc t k h
    cases hec : entryCoerce mp mit kv0 with
    | error e =>
      simp only [initLoop, hec, Except.error.injEq] at h
      subst h
      rcases entryCoerce_unsupported mp mit kv0 t k hec with ⟨h1, jk, h2, h3⟩
      exact ⟨by rw [List.map_cons]; exact h1 ▸ List.mem_cons_self _ _, jk, h1 ▸ h2, h3⟩
    | ok p =>
      obtain ⟨jk0, mv0⟩ := p
      simp only [initLoop, hec] at h
      rcases ih _ _ _ h with ⟨h1, h2⟩
      exact ⟨by rw [List.map_cons]; exact List.mem_cons_of_mem _ h1, h2⟩

end GoJira

namespace GoJira

theorem isErr_map (f : α → β) (e : Except ε α) : isErr (Except.map f e) = isErr e := by
  cases e <;> rfl

theorem map_ok_inv (f : α → β) (e : Except ε α) (b : β)
    (h : Except.map f e = Except.ok b) : ∃ a, e = Except.ok a ∧ b = f a := by
  cases e with
  | error err => simp [Except.map] at h
  | ok a =>
    simp only [Except.map, Except.ok.injEq] at h
    exact ⟨a, rfl, h.symm⟩

theorem map_error_inv (f : α → β) (e : Except ε α) (err : ε)
    (h : Except.map f e = Except.error err) : e = Except.error err := by
  cases e with
  | error err' =>
    simp only [Except.map, Except.error.injEq] at h
    rw [h]
  | ok a => simp [Except.map] at h

/-- C8 (amended): the builder fails exactly when some entry fails — its
display name does not resolve, or the resolved key has no declared schema
type, or the declared type is `array` without a declared item type, or the
declared type is outside the supported set (`entryFailsSpec`); on success
every entry was resolved and deposited into the fresh payload's dynamic
store (nothing is silently skipped, and no completeness validation occurs);
a `keyNotFound` error names a configured display name absent from the name
table, and an `unsupportedType` error names the declared type and the
configured display name. -/
theorem C8_failure_amended (mp : MetaProject) (mit : MetaIssueType)
    (cfg : List (String × String)) :
    (isErr (InitIssueWithMetaAndFields mp mit cfg) = cfg.any (entryFailsSpec mit)) ∧
    (∀ iss, InitIssueWithMetaAndFields mp mit cfg = Except.ok iss →
      ∃ m, iss.fields = some { IssueFields.init with unknowns := some m } ∧
        ∀ kv ∈ cfg, ∃ jk, mlookup kv.1 mit.allFields = some jk ∧
          (mlookup jk m).isSome = true) ∧
    (∀ k, InitIssueWithMetaAndFields mp mit cfg = Except.error (BuildErr.keyNotFound k) →
      k ∈ cfg.map Prod.fst ∧ mlookup k mit.allFields = none) ∧
    (∀ t k, InitIssueWithMetaAndFields mp mit cfg =
        Except.error (BuildErr.unsupportedType t k) →
      k ∈ cfg.map Prod.fst ∧ ∃ jk, mlookup k mit.allFields = some jk ∧
        mit.fieldsString (jk ++ "/schema/type") = some t) := by
  refine ⟨?_, ?_, ?_, ?_⟩
  · simp only [InitIssueWithMetaAndFields]
    rw [isErr_map]
    exact initLoop_isErr mp mit cfg []
  · intro iss h
    simp only [InitIssueWithMetaAndFields] at h
    rcases map_ok_inv _ _ _ h with ⟨m, hm, hiss⟩
    refine ⟨m, ?_, fun kv hkv => initLoop_deposits mp mit cfg [] m hm kv hkv⟩
    rw [hiss]
  · intro k h
    simp only [InitIssueWithMetaAndFields] at h
    exact initLoop_keyNotFound mp mit cfg [] k (map_error_inv _ _ _ h)
  · intro t k h
    simp only [InitIssueWithMetaAndFields] at h
    exact initLoop_unsupported mp mit cfg [] t k (map_error_inv _ _ _ h)

/-- Witness for C8: at concrete metadata, a `keyNotFound` failure names a
configured display name that is absent from the name table. -/
theorem C8_witness :
    "Nope" ∈ [("Nope", "x")].map Prod.fst ∧ mlookup "Nope" mitW.allFields = none :=
  (C8_failure_amended mpW mitW [("Nope", "x")]).2.2.1 "Nope" rfl

/-- Counterexample for C8 as stated: with metadata where the display name `F`
resolves to the key `f` but the metadata tree declares no schema type for it,
the build fails — although every display name resolves and no resolved field
declares a type outside the supported set, so neither of the claim's two
failure cases applies. -/
theorem C8_counterexample :
    InitIssueWithMetaAndFields mpW mitBad [("F", "x")] =
      Except.error (BuildErr.valueNotFound "f/schema/type") ∧
    mlookup "F" mitBad.allFields = some "f" ∧
    MetaIssueType.fieldsString mitBad "f/schema/type" = none :=
  ⟨rfl, rfl, rfl⟩

end GoJira
